import Mathlib

/-!
Shallow embedding of the KunBoxForWindows backend (src-tauri) in Lean 4,
used to settle the frozen claims about its natural-language specification.

Conventions of the embedding:
* `serde_json::Value` is modelled by `KBox.JVal` (no floating point numbers:
  every number the embedded code paths manipulate is integral).
* `serde_json` object maps are key-sorted `BTreeMap`s in the source; the
  embedding uses association lists.  All object values compared by the
  theorems are built by the embedding's own constructors, so list order is
  used consistently on both sides of every comparison.
* Byte strings (`Vec<u8>`, `&[u8]`) are `List Nat` with every element < 256.
* Rust string routines (`trim`, `to_lowercase`, `char::is_whitespace`) are
  modelled on their ASCII fragment; every concrete input in the development
  is ASCII.
* Filesystem and network effects are inputs: file contents, HTTP payloads
  and process-spawn outcomes are explicit parameters of the embedded
  functions, and persisted state is threaded as explicit records.
-/

namespace KBox

/-- Model of `serde_json::Value` (integral numbers only). -/
inductive JVal where
  | null : JVal
  | bool (b : Bool) : JVal
  | num (n : Int) : JVal
  | str (s : String) : JVal
  | arr (xs : List JVal) : JVal
  | obj (fs : List (String × JVal)) : JVal
  deriving Repr, Inhabited

/-- `Value::get(key)` on an object (None on non-objects). -/
def jGet (j : JVal) (k : String) : Option JVal :=
  match j with
  | .obj fs => (fs.find? (fun p => p.1 == k)).map Prod.snd
  | _ => none

/-- `Value::as_str`. -/
def jAsStr : JVal → Option String
  | .str s => some s
  | _ => none

/-- `Value::as_bool`. -/
def jAsBool : JVal → Option Bool
  | .bool b => some b
  | _ => none

/-- `Value::as_array`. -/
def jAsArr : JVal → Option (List JVal)
  | .arr xs => some xs
  | _ => none

/-- `Value::as_object` (the field list). -/
def jAsObj : JVal → Option (List (String × JVal))
  | .obj fs => some fs
  | _ => none

/-- `Value::as_u64`: an integral number in `[0, 2^64)`. -/
def jAsU64 : JVal → Option Nat
  | .num n => if 0 ≤ n ∧ n < (2 : Int) ^ 64 then some n.toNat else none
  | _ => none

/-- `Value::as_i64`: an integral number in `[-2^63, 2^63)`. -/
def jAsI64 : JVal → Option Int
  | .num n => if -(2 : Int) ^ 63 ≤ n ∧ n < (2 : Int) ^ 63 then some n else none
  | _ => none

/-- `Map::insert` on an object field list: replace in place or append. -/
def mInsert (m : List (String × JVal)) (k : String) (v : JVal) :
    List (String × JVal) :=
  if m.any (fun p => p.1 == k) then
    m.map (fun p => if p.1 == k then (k, v) else p)
  else m ++ [(k, v)]

/-- `Map::remove` on an object field list. -/
def mRemove (m : List (String × JVal)) (k : String) : List (String × JVal) :=
  m.filter (fun p => p.1 != k)

/-- `Map::contains_key` on an object field list. -/
def mHasKey (m : List (String × JVal)) (k : String) : Bool :=
  m.any (fun p => p.1 == k)

/-- Lookup on an object field list. -/
def mGet (m : List (String × JVal)) (k : String) : Option JVal :=
  (m.find? (fun p => p.1 == k)).map Prod.snd

/-! ### String and byte utilities -/

/-- Substring test on lists (used for Rust `str::contains`). -/
def listContainsSub [BEq α] (hay needle : List α) : Bool :=
  match hay with
  | [] => needle.isEmpty
  | _ :: t => needle.isPrefixOf hay || listContainsSub t needle

/-- Rust `str::contains(&str)`. -/
def strContainsSub (hay needle : String) : Bool :=
  listContainsSub hay.toList needle.toList

/-- Index (in characters) of the first occurrence of `needle`, Rust `str::find`
(the source only applies it to ASCII paths, where char and byte index agree). -/
def strFindSub (hay needle : String) : Option Nat :=
  go hay.toList 0
where
  go (l : List Char) (i : Nat) : Option Nat :=
    if needle.toList.isPrefixOf l then some i
    else match l with
      | [] => none
      | _ :: t => go t (i + 1)

/-- Rust `str::trim` (ASCII fragment: `Char.isWhitespace` covers the ASCII
whitespace the embedded inputs contain). -/
def rustTrim (s : String) : String :=
  String.mk (((s.toList.dropWhile Char.isWhitespace).reverse.dropWhile
    Char.isWhitespace).reverse)

/-- Split a string at every occurrence of a character, Rust `str::split(c)`
(always at least one segment). -/
def splitAllChar (s : String) (c : Char) : List String :=
  go [] s.toList
where
  go (acc : List Char) : List Char → List String
    | [] => [String.mk acc.reverse]
    | x :: t =>
      if x = c then String.mk acc.reverse :: go [] t else go (x :: acc) t

/-- Rust `str::lines`: split on the newline character, drop a final empty
segment, strip a trailing carriage return from each line. -/
def rustLines (s : String) : List String :=
  let parts := splitAllChar s '\n'
  let parts := if parts.getLast? = some "" then parts.dropLast else parts
  parts.map (fun l =>
    if l.toList.getLast? = some '\r' then String.mk l.toList.dropLast else l)

/-- Split at every character satisfying the predicate. -/
def splitAllPred (s : String) (p : Char → Bool) : List String :=
  go [] s.toList
where
  go (acc : List Char) : List Char → List String
    | [] => [String.mk acc.reverse]
    | x :: t =>
      if p x then String.mk acc.reverse :: go [] t else go (x :: acc) t

/-- Rust `str::split_whitespace` as a list of non-empty words. -/
def splitWhitespaceWords (s : String) : List String :=
  (splitAllPred s Char.isWhitespace).filter (fun w => w ≠ "")

/-- Rust str::starts_with for a literal. -/
def strStartsWith (s pre : String) : Bool :=
  pre.toList.isPrefixOf s.toList

/-- Drop the first `n` characters (the source only applies this at ASCII
positions, where char and byte index agree). -/
def strDrop (s : String) (n : Nat) : String := String.mk (s.toList.drop n)

/-- Take the first `n` characters (ASCII positions). -/
def strTake (s : String) (n : Nat) : String := String.mk (s.toList.take n)

/-- Join strings with a separator (str join / intercalate). -/
def strJoinSep (sep : String) : List String → String
  | [] => ""
  | [x] => x
  | x :: rest => x ++ sep ++ strJoinSep sep rest

/-- ASCII lowercasing of a character (the ASCII fragment of Rust
to_lowercase; no embedded code path distinguishes non-ASCII lowercasing). -/
def charLowerAscii (c : Char) : Char :=
  if 'A' ≤ c ∧ c ≤ 'Z' then Char.ofNat (c.toNat + 32) else c

/-- ASCII lowercasing of a string. -/
def strToLower (s : String) : String := String.mk (s.toList.map charLowerAscii)

/-- Split a string at the first occurrence of a character,
Rust `str::split_once(c)`. -/
def splitOnceChar (s : String) (c : Char) : Option (String × String) :=
  go [] s.toList
where
  go (acc : List Char) : List Char → Option (String × String)
    | [] => none
    | x :: t =>
      if x = c then some (String.mk acc.reverse, String.mk t)
      else go (x :: acc) t

/-- Rust u16 string parsing: optional leading plus sign, digits only,
value below 2^16. -/
def parseU16 (s : String) : Option Nat :=
  let cs := s.toList
  let cs := match cs with
    | '+' :: t => t
    | t => t
  if cs ≠ [] ∧ cs.all Char.isDigit then
    let n := cs.foldl (fun a c => a * 10 + (c.toNat - 48)) 0
    if n < 65536 then some n else none
  else none

/-- Rust u32 string parsing: optional leading plus sign, digits only,
value below 2^32. -/
def parseU32 (s : String) : Option Nat :=
  let cs := s.toList
  let cs := match cs with
    | '+' :: t => t
    | t => t
  if cs ≠ [] ∧ cs.all Char.isDigit then
    let n := cs.foldl (fun a c => a * 10 + (c.toNat - 48)) 0
    if n < 4294967296 then some n else none
  else none

/-! ### Base64 (standard alphabet, with padding), UTF-8, percent-encoding -/

/-- Character of the standard base64 alphabet at index `n` (0..63). -/
def b64Char (n : Nat) : Char :=
  if n < 26 then Char.ofNat (65 + n)
  else if n < 52 then Char.ofNat (97 + (n - 26))
  else if n < 62 then Char.ofNat (48 + (n - 52))
  else if n = 62 then '+'
  else '/'

/-- Index of a character in the standard base64 alphabet. -/
def b64Index (c : Char) : Option Nat :=
  if 'A' ≤ c ∧ c ≤ 'Z' then some (c.toNat - 65)
  else if 'a' ≤ c ∧ c ≤ 'z' then some (c.toNat - 97 + 26)
  else if '0' ≤ c ∧ c ≤ '9' then some (c.toNat - 48 + 52)
  else if c = '+' then some 62
  else if c = '/' then some 63
  else none

/-- Base64 encoding of a byte list, standard alphabet with padding
(the `general_purpose::STANDARD` engine of the `base64` crate). -/
def base64Encode (bs : List Nat) : String :=
  String.mk (go bs)
where
  go : List Nat → List Char
    | [] => []
    | [a] => [b64Char (a / 4), b64Char (a % 4 * 16), '=', '=']
    | [a, b] => [b64Char (a / 4), b64Char (a % 4 * 16 + b / 16),
                 b64Char (b % 16 * 4), '=']
    | a :: b :: c :: rest =>
        b64Char (a / 4) :: b64Char (a % 4 * 16 + b / 16) ::
        b64Char (b % 16 * 4 + c / 64) :: b64Char (c % 64) :: go rest

/-- Base64 decoding, standard alphabet: length must be a multiple of four,
canonical padding only at the end, trailing bits must be zero (the strict
behaviour of the `general_purpose::STANDARD` engine). -/
def base64Decode (s : String) : Option (List Nat) :=
  go s.toList
where
  go : List Char → Option (List Nat)
    | [] => some []
    | [a, b, '=', '='] => do
        let i ← b64Index a
        let j ← b64Index b
        if j % 16 = 0 then pure [i * 4 + j / 16] else none
    | [a, b, c, '='] => do
        let i ← b64Index a
        let j ← b64Index b
        let k ← b64Index c
        if k % 4 = 0 then pure [i * 4 + j / 16, j % 16 * 16 + k / 4] else none
    | a :: b :: c :: d :: rest => do
        let i ← b64Index a
        let j ← b64Index b
        let k ← b64Index c
        let l ← b64Index d
        let tail ← go rest
        pure ((i * 4 + j / 16) :: (j % 16 * 16 + k / 4) :: (k % 4 * 64 + l) :: tail)
    | _ => none

/-- UTF-8 encoding of one Unicode scalar value. -/
def utf8EncodeChar (c : Char) : List Nat :=
  let n := c.toNat
  if n < 128 then [n]
  else if n < 2048 then [192 + n / 64, 128 + n % 64]
  else if n < 65536 then [224 + n / 4096, 128 + n / 64 % 64, 128 + n % 64]
  else [240 + n / 262144, 128 + n / 4096 % 64, 128 + n / 64 % 64, 128 + n % 64]

/-- UTF-8 encoding of a string (Rust `str::as_bytes` / `String::into_bytes`). -/
def utf8EncodeStr (s : String) : List Nat :=
  (s.toList.map utf8EncodeChar).flatten

/-- Whether a byte is a UTF-8 continuation byte within the given bounds. -/
def utf8Cont (lo hi b : Nat) : Bool := lo ≤ b ∧ b ≤ hi

/-- Strict UTF-8 decoding (Rust `String::from_utf8`): rejects overlong forms,
surrogates and out-of-range sequences. -/
def utf8Decode (bs : List Nat) : Option String :=
  (go bs).map String.mk
where
  go : List Nat → Option (List Char)
    | [] => some []
    | b :: rest =>
      if b < 128 then do pure (Char.ofNat b :: (← go rest))
      else if 194 ≤ b ∧ b ≤ 223 then
        match rest with
        | b2 :: r2 =>
          if utf8Cont 128 191 b2 then do
            pure (Char.ofNat ((b - 192) * 64 + (b2 - 128)) :: (← go r2))
          else none
        | _ => none
      else if 224 ≤ b ∧ b ≤ 239 then
        match rest with
        | b2 :: b3 :: r3 =>
          let lo2 := if b = 224 then 160 else 128
          let hi2 := if b = 237 then 159 else 191
          if utf8Cont lo2 hi2 b2 ∧ utf8Cont 128 191 b3 then do
            pure (Char.ofNat ((b - 224) * 4096 + (b2 - 128) * 64 + (b3 - 128)) ::
              (← go r3))
          else none
        | _ => none
      else if 240 ≤ b ∧ b ≤ 244 then
        match rest with
        | b2 :: b3 :: b4 :: r4 =>
          let lo2 := if b = 240 then 144 else 128
          let hi2 := if b = 244 then 143 else 191
          if utf8Cont lo2 hi2 b2 ∧ utf8Cont 128 191 b3 ∧ utf8Cont 128 191 b4 then do
            pure (Char.ofNat ((b - 240) * 262144 + (b2 - 128) * 4096 +
              (b3 - 128) * 64 + (b4 - 128)) :: (← go r4))
          else none
        | _ => none
      else none

/-- Uppercase hex digit for a value below 16. -/
def hexDigitUpper (n : Nat) : Char :=
  if n < 10 then Char.ofNat (48 + n) else Char.ofNat (65 + (n - 10))

/-- Value of an ASCII hex digit character. -/
def hexVal (c : Char) : Option Nat :=
  if '0' ≤ c ∧ c ≤ '9' then some (c.toNat - 48)
  else if 'a' ≤ c ∧ c ≤ 'f' then some (c.toNat - 97 + 10)
  else if 'A' ≤ c ∧ c ≤ 'F' then some (c.toNat - 65 + 10)
  else none

/-- Unreserved characters kept verbatim by the `urlencoding` crate. -/
def urlUnreserved (c : Char) : Bool :=
  ('A' ≤ c ∧ c ≤ 'Z') ∨ ('a' ≤ c ∧ c ≤ 'z') ∨ ('0' ≤ c ∧ c ≤ '9') ∨
  c = '-' ∨ c = '_' ∨ c = '.' ∨ c = '~'

/-- Percent-encoding as done by the `urlencoding` crate: unreserved characters
kept, every other character has each of its UTF-8 bytes written as a percent
escape with uppercase hex digits. -/
def percentEncode (s : String) : String :=
  String.mk (s.toList.flatMap fun c =>
    if urlUnreserved c then [c]
    else (utf8EncodeChar c).flatMap fun b =>
      ['%', hexDigitUpper (b / 16), hexDigitUpper (b % 16)])

/-- Percent-decoding as done by the `urlencoding` crate: a percent sign
followed by two hex digits becomes a byte, an invalid escape is passed
through verbatim, and the decoded bytes must form valid UTF-8. -/
def percentDecode (s : String) : Option String :=
  utf8Decode (go (utf8EncodeStr s))
where
  go : List Nat → List Nat
    | [] => []
    | 37 :: h1 :: h2 :: rest =>
      match hexVal (Char.ofNat h1), hexVal (Char.ofNat h2) with
      | some a, some b => (a * 16 + b) :: go rest
      | _, _ => 37 :: go (h1 :: h2 :: rest)
    | b :: rest => b :: go rest

/-! ### Data model: nodes (`SingBoxOutbound`) -/

/-- `SingBoxOutbound` from types.rs: one proxy endpoint.  The flattened
`extra` HashMap is modelled as an association list (iteration order of the
source map is arbitrary; the embedding fixes insertion order). -/
structure Node where
  tag : Option String
  outboundType : Option String
  server : Option String
  serverPort : Option Nat
  extra : List (String × JVal)
  deriving Repr, Inhabited

/-- Serde deserialization of a JSON value into `SingBoxOutbound`: an optional
string field accepts a string, null, or an absent key. -/
def jOptStrField (fs : List (String × JVal)) (k : String) : Option (Option String) :=
  match mGet fs k with
  | none => some none
  | some .null => some none
  | some (.str s) => some (some s)
  | some _ => none

/-- Serde deserialization of a JSON value into a `SingBoxOutbound` record
(`serde_json::from_value`): fails when a known field has the wrong shape;
all remaining fields are collected into `extra`. -/
def jToNode (o : JVal) : Option Node := do
  let fs ← jAsObj o
  let tag ← jOptStrField fs "tag"
  let otype ← jOptStrField fs "type"
  let server ← jOptStrField fs "server"
  let sport ← match mGet fs "server_port" with
    | none => some none
    | some .null => some none
    | some (.num n) => if 0 ≤ n ∧ n < 65536 then some (some n.toNat) else none
    | some _ => none
  let extra := fs.filter (fun p =>
    !(["tag", "type", "server", "server_port"].contains p.1))
  pure ⟨tag, otype, server, sport, extra⟩

/-- Serde serialization of `SingBoxOutbound` back to a JSON value: the four
named fields (None as null), then the flattened extras. -/
def nodeToJVal (n : Node) : JVal :=
  let optStr : Option String → JVal := fun o => match o with
    | some s => .str s
    | none => .null
  .obj ([("tag", optStr n.tag), ("type", optStr n.outboundType),
         ("server", optStr n.server),
         ("server_port", match n.serverPort with
           | some p => .num p
           | none => .null)] ++ n.extra)

/-! ### JSON text serialization (serde_json to_string / to_string_pretty) -/

/-- Lowercase hex digit. -/
def hexDigitLower (n : Nat) : Char :=
  if n < 10 then Char.ofNat (48 + n) else Char.ofNat (97 + (n - 10))

/-- serde_json string escaping for one character. -/
def jsonEscapeChar (c : Char) : List Char :=
  if c = '"' then ['\\', '"']
  else if c = '\\' then ['\\', '\\']
  else if c = Char.ofNat 8 then ['\\', 'b']
  else if c = Char.ofNat 12 then ['\\', 'f']
  else if c = '\n' then ['\\', 'n']
  else if c = Char.ofNat 13 then ['\\', 'r']
  else if c = '\t' then ['\\', 't']
  else if c.toNat < 32 then
    ['\\', 'u', '0', '0', hexDigitLower (c.toNat / 16), hexDigitLower (c.toNat % 16)]
  else [c]

/-- A JSON string literal with serde_json escaping. -/
def jsonQuote (s : String) : String :=
  "\"" ++ String.mk (s.toList.flatMap jsonEscapeChar) ++ "\""

mutual

/-- Compact JSON serialization (serde_json `to_string`). -/
def jsonToString : JVal → String
  | .null => "null"
  | .bool b => if b then "true" else "false"
  | .num n => toString n
  | .str s => jsonQuote s
  | .arr xs => "[" ++ jsonArrBody xs ++ "]"
  | .obj fs => "\x7b" ++ jsonObjBody fs ++ "\x7d"

/-- Comma-joined array elements. -/
def jsonArrBody : List JVal → String
  | [] => ""
  | [x] => jsonToString x
  | x :: xs => jsonToString x ++ "," ++ jsonArrBody xs

/-- Comma-joined object fields. -/
def jsonObjBody : List (String × JVal) → String
  | [] => ""
  | [(k, v)] => jsonQuote k ++ ":" ++ jsonToString v
  | (k, v) :: fs => jsonQuote k ++ ":" ++ jsonToString v ++ "," ++ jsonObjBody fs

end

/-- Indentation of `n` spaces. -/
def spacesStr (n : Nat) : String := String.mk (List.replicate n ' ')

mutual

/-- Pretty JSON serialization (serde_json `to_string_pretty`, 2-space indent). -/
def jprettyVal (ind : Nat) : JVal → String
  | .arr xs =>
    if xs.isEmpty then "[]"
    else "[\n" ++ jprettyArr (ind + 2) xs ++ "\n" ++ spacesStr ind ++ "]"
  | .obj fs =>
    if fs.isEmpty then "\x7b\x7d"
    else "\x7b\n" ++ jprettyObj (ind + 2) fs ++ "\n" ++ spacesStr ind ++ "\x7d"
  | v => jsonToString v

/-- Pretty-printed array elements. -/
def jprettyArr (ind : Nat) : List JVal → String
  | [] => ""
  | [x] => spacesStr ind ++ jprettyVal ind x
  | x :: xs => spacesStr ind ++ jprettyVal ind x ++ ",\n" ++ jprettyArr ind xs

/-- Pretty-printed object fields. -/
def jprettyObj (ind : Nat) : List (String × JVal) → String
  | [] => ""
  | [(k, v)] => spacesStr ind ++ jsonQuote k ++ ": " ++ jprettyVal ind v
  | (k, v) :: fs =>
    spacesStr ind ++ jsonQuote k ++ ": " ++ jprettyVal ind v ++ ",\n" ++
      jprettyObj ind fs

end

/-! ### Node-link parsing and export (profiles.rs) -/

/-- `parse_node_link` from profiles.rs: only shadowsocks URIs are understood;
every structural mismatch yields `none`. -/
def parseNodeLink (link : String) : Option Node :=
  if strStartsWith link "ss://" then do
    let rest := strDrop link 5
    let (encoded, rawTag) := (splitOnceChar rest '#').getD (rest, "SS")
    let tag ← percentDecode rawTag
    match splitAllChar encoded '@' with
    | [userInfo, hostPort] => do
      let decoded ← base64Decode userInfo
      let decodedStr ← utf8Decode decoded
      let (method, password) ← splitOnceChar decodedStr ':'
      match splitAllChar hostPort ':' with
      | [host, portStr] =>
        some { tag := some tag
               outboundType := some "shadowsocks"
               server := some host
               serverPort := parseU16 portStr
               extra := [("method", .str method), ("password", .str password)] }
      | _ => none
    | _ => none
  else none

/-- `map_clash_type` from profiles.rs. -/
def mapClashType (t : String) : String :=
  match strToLower t with
  | "ss" => "shadowsocks"
  | "ssr" => "shadowsocksr"
  | "vmess" => "vmess"
  | "vless" => "vless"
  | "trojan" => "trojan"
  | "hysteria" => "hysteria"
  | "hysteria2" => "hysteria2"
  | "tuic" => "tuic"
  | "http" => "http"
  | "socks5" => "socks"
  | other => other

/-- `export_node_to_link` from profiles.rs.  Object literals that the source
builds as serde_json maps are written in key-sorted order, matching their
serialization. -/
def exportNodeToLink (node : Node) : String :=
  let tag := percentEncode (node.tag.getD "Node")
  let nodeType := node.outboundType.getD ""
  let server := node.server.getD ""
  let port := node.serverPort.getD 0
  match strToLower nodeType with
  | "shadowsocks" =>
    let method := ((mGet node.extra "method").bind jAsStr).getD "aes-256-gcm"
    let password := ((mGet node.extra "password").bind jAsStr).getD ""
    "ss://" ++ base64Encode (utf8EncodeStr (method ++ ":" ++ password)) ++
      "@" ++ server ++ ":" ++ toString port ++ "#" ++ tag
  | "vmess" =>
    let uuid := ((mGet node.extra "uuid").bind jAsStr).getD ""
    let config : JVal := .obj
      [("add", .str server), ("aid", .num 0), ("id", .str uuid),
       ("net", .str "tcp"), ("port", .num port),
       ("ps", match node.tag with | some t => .str t | none => .null),
       ("tls", .str ""), ("type", .str "none"), ("v", .str "2")]
    "vmess://" ++ base64Encode (utf8EncodeStr (jsonToString config))
  | "vless" =>
    let uuid := ((mGet node.extra "uuid").bind jAsStr).getD ""
    let flow := ((mGet node.extra "flow").bind jAsStr).getD ""
    "vless://" ++ uuid ++ "@" ++ server ++ ":" ++ toString port ++
      "?flow=" ++ flow ++ "&type=tcp#" ++ tag
  | "trojan" =>
    let password := ((mGet node.extra "password").bind jAsStr).getD ""
    "trojan://" ++ password ++ "@" ++ server ++ ":" ++ toString port ++ "#" ++ tag
  | "hysteria2" =>
    let password := ((mGet node.extra "password").bind jAsStr).getD ""
    "hysteria2://" ++ password ++ "@" ++ server ++ ":" ++ toString port ++ "#" ++ tag
  | _ => jprettyVal 0 (nodeToJVal node)

/-! ### Subscription parsing (profiles.rs) -/

/-- One entry of `parse_clash_proxies`: requires name, type, server, port
(dropping the entry otherwise), then carries protocol-specific fields and
synthesizes the TLS and transport blocks exactly as the source does. -/
def parseClashEntry (p : JVal) : Option Node := do
  let tag ← (jGet p "name").bind jAsStr
  let proxyType := mapClashType (← (jGet p "type").bind jAsStr)
  let server ← (jGet p "server").bind jAsStr
  let portN ← (jGet p "port").bind jAsU64
  let port := portN % 65536
  let extra : List (String × JVal) := []
  let extra := match (jGet p "password").bind jAsStr with
    | some pwd => mInsert extra "password" (.str pwd)
    | none => extra
  let extra := match (jGet p "uuid").bind jAsStr with
    | some uuid => mInsert extra "uuid" (.str uuid)
    | none => extra
  let extra := match (jGet p "flow").bind jAsStr with
    | some flow => mInsert extra "flow" (.str flow)
    | none => extra
  let extra :=
    if proxyType = "shadowsocks" ∨ proxyType = "shadowsocksr" then
      match ((jGet p "method").orElse (fun _ => jGet p "cipher")).bind jAsStr with
      | some method => mInsert extra "method" (.str method)
      | none => extra
    else extra
  let extra :=
    if proxyType = "vmess" then
      let extra := mInsert extra "security"
        (.str (((jGet p "cipher").bind jAsStr).getD "auto"))
      match (jGet p "alterId").bind jAsU64 with
      | some aid => mInsert extra "alter_id" (.num aid)
      | none => extra
    else extra
  let extra :=
    if proxyType = "vless" then mInsert extra "packet_encoding" (.str "xudp")
    else extra
  let network := ((jGet p "network").bind jAsStr).getD "tcp"
  let tlsEnabled := ((jGet p "tls").bind jAsBool).getD false
  let servername := ((jGet p "servername").orElse (fun _ => jGet p "sni")).bind jAsStr
  let skipCert := ((jGet p "skip-cert-verify").bind jAsBool).getD false
  let extra :=
    if tlsEnabled ∨ network = "ws" ∨ network = "grpc" ∨ network = "h2" ∨
        proxyType = "hysteria2" ∨ proxyType = "hysteria" ∨ proxyType = "tuic" then
      let tls : List (String × JVal) := []
      let tls := mInsert tls "enabled" (.bool true)
      let tls := mInsert tls "server_name" (.str (servername.getD server))
      let tls := mInsert tls "insecure" (.bool skipCert)
      let tls := match (jGet p "alpn").bind jAsArr with
        | some alpn => mInsert tls "alpn" (.arr alpn)
        | none => tls
      let tls := match (jGet p "client-fingerprint").bind jAsStr with
        | some fp => mInsert tls "utls"
            (.obj [("enabled", .bool true), ("fingerprint", .str fp)])
        | none => tls
      let tls := match (jGet p "reality-opts").bind jAsObj with
        | some realityOpts =>
          let reality : List (String × JVal) := []
          let reality := mInsert reality "enabled" (.bool true)
          let reality := match (mGet realityOpts "public-key").bind jAsStr with
            | some pk => mInsert reality "public_key" (.str pk)
            | none => reality
          let reality := match (mGet realityOpts "short-id").bind jAsStr with
            | some sid => mInsert reality "short_id" (.str sid)
            | none => reality
          mInsert tls "reality" (.obj reality)
        | none => tls
      mInsert extra "tls" (.obj tls)
    else extra
  let extra :=
    match network with
    | "ws" =>
      let wsOpts := (jGet p "ws-opts").bind jAsObj
      let transport : List (String × JVal) := [("type", .str "ws")]
      let path := ((wsOpts.bind (fun o => mGet o "path")).bind jAsStr).getD "/"
      let (transport, path) :=
        match strFindSub path "?ed=" with
        | some edPos =>
          let edStr := strDrop path (edPos + 4)
          let transport := match parseU32 edStr with
            | some ed =>
              mInsert (mInsert transport "max_early_data" (.num ed))
                "early_data_header_name" (.str "Sec-WebSocket-Protocol")
            | none => transport
          (transport, strTake path edPos)
        | none => (transport, path)
      let transport := mInsert transport "path" (.str path)
      let transport := match (wsOpts.bind (fun o => mGet o "headers")).bind jAsObj with
        | some headers => mInsert transport "headers" (.obj headers)
        | none => transport
      mInsert extra "transport" (.obj transport)
    | "grpc" =>
      let grpcOpts := (jGet p "grpc-opts").bind jAsObj
      let transport : List (String × JVal) := [("type", .str "grpc")]
      let transport := match (grpcOpts.bind (fun o => mGet o "grpc-service-name")).bind jAsStr with
        | some sn => mInsert transport "service_name" (.str sn)
        | none => transport
      mInsert extra "transport" (.obj transport)
    | "h2" =>
      let h2Opts := (jGet p "h2-opts").bind jAsObj
      let transport : List (String × JVal) := [("type", .str "http")]
      let transport := match (h2Opts.bind (fun o => mGet o "path")).bind jAsArr with
        | some pathArr =>
          mInsert transport "path" (.str (strJoinSep "," (pathArr.filterMap jAsStr)))
        | none => transport
      let transport := match h2Opts.bind (fun o => mGet o "host") with
        | some host => mInsert transport "host" host
        | none => transport
      mInsert extra "transport" (.obj transport)
    | _ => extra
  some { tag := some tag
         outboundType := some proxyType
         server := some server
         serverPort := some port
         extra := extra }

/-- `parse_clash_proxies`: entries missing required fields are silently
dropped; the function never fails. -/
def parseClashProxies (proxies : List JVal) : Except String (List Node) :=
  .ok (proxies.filterMap parseClashEntry)

/-- `parse_singbox_outbounds`: drops structural outbound types and entries
that do not deserialize into a node record. -/
def parseSingboxOutbounds (outbounds : List JVal) : Except String (List Node) :=
  .ok (outbounds.filterMap fun o => do
    let otype ← (jGet o "type").bind jAsStr
    if ["direct", "block", "dns", "selector", "urltest"].contains otype then none
    else jToNode o)

/-- The line-based link collection shared by the base64 and raw-line stages
of `parse_subscription_content`: split into lines, trim each, parse each as
a node link, keep the successes. -/
def linkNodesOf (s : String) : List Node :=
  (rustLines s).filterMap (fun line => parseNodeLink (rustTrim line))

/-- `parse_subscription_content`, parameterized by the JSON and YAML text
parsers (serde_json and serde_yaml applied to the body), which are inputs of
the embedding; base64 decoding, UTF-8 decoding and link parsing are concrete.
Strategies in source order: JSON, YAML, base64-decoded lines, raw lines. -/
def parseSubscriptionContent (jsonParse yamlParse : String → Option JVal)
    (content : String) : Except String (List Node) :=
  let rawStage : Except String (List Node) :=
    let nodes := linkNodesOf content
    if nodes.isEmpty then .error "No valid nodes found" else .ok nodes
  let base64Stage : Except String (List Node) :=
    match (base64Decode (rustTrim content)).bind utf8Decode with
    | some decodedStr =>
      let nodes := linkNodesOf decodedStr
      if !nodes.isEmpty then .ok nodes else rawStage
    | none => rawStage
  let yamlStage : Except String (List Node) :=
    match yamlParse content with
    | some y =>
      match (jGet y "proxies").bind jAsArr with
      | some proxies => parseClashProxies proxies
      | none => base64Stage
    | none => base64Stage
  match jsonParse content with
  | some j =>
    match (jGet j "proxies").bind jAsArr with
    | some proxies => parseClashProxies proxies
    | none =>
      match (jGet j "outbounds").bind jAsArr with
      | some obs => parseSingboxOutbounds obs
      | none => yamlStage
  | none => yamlStage

/-! ### Kernel configuration synthesis (singbox.rs) -/

/-- `is_proxy_type` from singbox.rs. -/
def isProxyType (nodeType : String) : Bool :=
  ["shadowsocks", "vmess", "vless", "trojan",
   "hysteria", "hysteria2", "tuic", "anytls",
   "http", "socks", "wireguard", "ssh", "shadowtls"].contains nodeType

/-- `process_node` from singbox.rs: node normalization applied to every node
before it reaches the generated configuration. -/
def processNode (node : JVal) : JVal :=
  match node with
  | .obj fs =>
    let nodeType := ((mGet fs "type").bind jAsStr).getD ""
    let server := ((mGet fs "server").bind jAsStr).getD ""
    let port := ((mGet fs "server_port").bind jAsU64).getD 0
    let fs :=
      if nodeType ≠ "shadowsocks" ∧ nodeType ≠ "shadowsocksr" then
        mRemove fs "method"
      else fs
    let tlsBlock : JVal := .obj
      [("enabled", .bool true), ("insecure", .bool true),
       ("server_name", .str server)]
    let fs :=
      if !mHasKey fs "tls" then
        if nodeType = "hysteria2" ∨ nodeType = "hysteria" ∨ nodeType = "tuic" then
          mInsert fs "tls" tlsBlock
        else if nodeType = "vless" ∨ nodeType = "vmess" ∨ nodeType = "trojan" then
          if port = 443 ∨ port = 8443 ∨ port = 2053 then
            mInsert fs "tls" tlsBlock
          else fs
        else fs
      else fs
    let fs :=
      if nodeType = "vless" ∧ !mHasKey fs "packet_encoding" then
        mInsert fs "packet_encoding" (.str "xudp")
      else fs
    .obj fs
  | _ => node

/-- `ProfileInfo` from singbox.rs: a profile id, its display name and its
node file's raw JSON entries (used for cross-profile routing). -/
structure ProfileInfoM where
  id : String
  name : String
  nodes : List JVal
  deriving Repr, Inhabited

/-- Tag of a JSON outbound object, when it is a string. -/
def jTagOf (o : JVal) : Option String := (jGet o "tag").bind jAsStr

/-- Type of a JSON outbound object, defaulted to the empty string as the
source does. -/
def jTypeOf (o : JVal) : String := ((jGet o "type").bind jAsStr).getD ""

/-- The `PROXY` selector object of generate_config step 4 (fields listed in
the order serde serializes them). -/
def mkProxySelector (tags : List String) (dflt : Option String) : JVal :=
  .obj [("default", match dflt with | some t => .str t | none => .null),
        ("interrupt_exist_connections", .bool false),
        ("outbounds", .arr (tags.map .str)),
        ("tag", .str "PROXY"), ("type", .str "selector")]

/-- The `auto` urltest object of generate_config step 5. -/
def mkAutoUrltest (tags : List String) (latencyTestUrl : String) : JVal :=
  .obj [("interval", .str "300s"),
        ("outbounds", .arr (tags.map .str)),
        ("tag", .str "auto"), ("tolerance", .num 50),
        ("type", .str "urltest"), ("url", .str latencyTestUrl)]

/-- The per-profile urltest selector object of generate_config step 3. -/
def mkProfileUrltest (selectorTag : String) (tags : List String)
    (latencyTestUrl : String) : JVal :=
  .obj [("interrupt_exist_connections", .bool true),
        ("interval", .str "30m"),
        ("outbounds", .arr (tags.map .str)),
        ("tag", .str selectorTag), ("tolerance", .num 50),
        ("type", .str "urltest"), ("url", .str latencyTestUrl)]

/-- The fixed `direct` outbound of generate_config step 6. -/
def mkDirectOutbound : JVal := .obj [("tag", .str "direct"), ("type", .str "direct")]

/-- The fixed `block` outbound of generate_config step 6. -/
def mkBlockOutbound : JVal := .obj [("tag", .str "block"), ("type", .str "block")]

/-- Step 1 of the outbound assembly: add every proxy-type node of the active
profile, collecting the tags of those that have one.  Returns
(outbounds, proxyTags); the existing-tag set of the source coincides with
the collected tag list at this point. -/
def assembleStep1 (nodes : List JVal) : List JVal × List String :=
  go ([], []) nodes
where
  go (acc : List JVal × List String) : List JVal → List JVal × List String
    | [] => acc
    | node :: rest =>
      if isProxyType (jTypeOf node) then
        match jTagOf node with
        | some tag => go (acc.1 ++ [node], acc.2 ++ [tag]) rest
        | none => go (acc.1 ++ [node], acc.2) rest
      else go acc rest

/-- Step 2 helper: the first profile containing a proxy-type node whose tag
matches, returning that node — the source scans profiles in order and, per
profile, looks at the first node with the tag, skipping the profile when that
node is not proxy-typed. -/
def findCrossProfileNode (allProfiles : List ProfileInfoM) (nodeTag : String) :
    Option JVal :=
  match allProfiles with
  | [] => none
  | profile :: rest =>
    match profile.nodes.find? (fun n => jTagOf n == some nodeTag) with
    | some node =>
      if isProxyType (jTypeOf node) then some node
      else findCrossProfileNode rest nodeTag
    | none => findCrossProfileNode rest nodeTag

/-- Step 2 of the outbound assembly: resolve rule-set node references against
other profiles.  State: (outbounds, proxyTags, existingTags). -/
def assembleStep2 (allProfiles : List ProfileInfoM)
    (refNodeTags : List String)
    (st : List JVal × List String × List String) :
    List JVal × List String × List String :=
  refNodeTags.foldl
    (fun acc nodeTag =>
      if acc.2.2.contains nodeTag then acc
      else
        match findCrossProfileNode allProfiles nodeTag with
        | some node =>
          (acc.1 ++ [processNode node], acc.2.1 ++ [nodeTag], acc.2.2 ++ [nodeTag])
        | none => acc)
    st

/-- Inner loop of step 3: collect one referenced profile's proxy nodes,
appending the not-yet-present ones to the outbounds.  State:
(outbounds, existingTags, profileProxyTags). -/
def collectProfileNodes (nodes : List JVal)
    (st : List JVal × List String × List String) :
    List JVal × List String × List String :=
  nodes.foldl
    (fun acc node =>
      if isProxyType (jTypeOf node) then
        match jTagOf node with
        | some tag =>
          if acc.2.1.contains tag then (acc.1, acc.2.1, acc.2.2 ++ [tag])
          else (acc.1 ++ [processNode node], acc.2.1 ++ [tag], acc.2.2 ++ [tag])
        | none => acc
      else acc)
    st

/-- Step 3 of the outbound assembly: build a urltest selector per referenced
profile.  State: (outbounds, existingTags, profileIdToSelector). -/
def assembleStep3 (allProfiles : List ProfileInfoM)
    (refProfileIds : List String) (latencyTestUrl : String)
    (st : List JVal × List String × List (String × String)) :
    List JVal × List String × List (String × String) :=
  refProfileIds.foldl
    (fun acc profileId =>
      match allProfiles.find? (fun p => p.id == profileId) with
      | some profile =>
        let selectorTag := "P:" ++ profile.name
        if acc.2.1.contains selectorTag then acc
        else
          let inner := collectProfileNodes profile.nodes (acc.1, acc.2.1, [])
          let profileProxyTags := inner.2.2
          if profileProxyTags.isEmpty then (inner.1, inner.2.1, acc.2.2)
          else
            (inner.1 ++ [mkProfileUrltest selectorTag profileProxyTags latencyTestUrl],
             inner.2.1 ++ [selectorTag],
             acc.2.2 ++ [(profileId, selectorTag)])
      | none => acc)
    st

/-- The outbound assembly of `generate_config` (steps 1-6), applied to the
active profile's raw node file entries.  Returns the final outbound list and
the profile-id-to-selector map used by the routing rules. -/
def generateOutbounds (rawNodes : List JVal)
    (storedActiveNodeTag : Option String)
    (allProfiles : List ProfileInfoM)
    (refNodeTags refProfileIds : List String)
    (latencyTestUrl : String) : List JVal × List (String × String) :=
  let nodes := rawNodes.map processNode
  let activeNodeTag := storedActiveNodeTag.orElse (fun _ => nodes.head?.bind jTagOf)
  let s1 := assembleStep1 nodes
  let s2 := assembleStep2 allProfiles refNodeTags (s1.1, s1.2, s1.2)
  let s3 := assembleStep3 allProfiles refProfileIds latencyTestUrl
    (s2.1, s2.2.2, [])
  let outbounds := s3.1
  let proxyTags := s2.2.1
  let outbounds :=
    if !proxyTags.isEmpty then
      mkProxySelector proxyTags activeNodeTag :: outbounds
    else outbounds
  let outbounds :=
    if proxyTags.length > 1 then
      outbounds ++ [mkAutoUrltest proxyTags latencyTestUrl]
    else outbounds
  (outbounds ++ [mkDirectOutbound, mkBlockOutbound], s3.2.2)

/-! ### Rule-set download verification (rulesets.rs) -/

/-- ASCII lowercasing of a byte (models the ASCII fragment of the
String::to_lowercase applied to the lossily decoded header: multi-byte
UTF-8 sequences never lowercase into the searched ASCII patterns). -/
def byteToLowerAscii (b : Nat) : Nat :=
  if 65 ≤ b ∧ b ≤ 90 then b + 32 else b

/-- ASCII whitespace bytes (the ASCII fragment of char::is_whitespace used
by str::trim on the header). -/
def isAsciiWsByte (b : Nat) : Bool :=
  b = 9 ∨ b = 10 ∨ b = 11 ∨ b = 12 ∨ b = 13 ∨ b = 32

/-- str::trim on a byte string (ASCII fragment). -/
def trimBytes (bs : List Nat) : List Nat :=
  ((bs.dropWhile isAsciiWsByte).reverse.dropWhile isAsciiWsByte).reverse

/-- `download_and_verify` from rulesets.rs, after the HTTP layer: the status
code and the received body are inputs.  The content checks run on the first
64 bytes: too-small payloads, payloads whose lowercased header contains an
HTML marker, and payloads whose trimmed header starts with an opening brace
are rejected. -/
def downloadAndVerify (status : Nat) (bytes : List Nat) :
    Except String (List Nat) :=
  if !(200 ≤ status ∧ status ≤ 299) then
    .error ("HTTP " ++ toString status)
  else if bytes.length < 10 then
    .error "File too small"
  else
    let header := bytes.take 64
    let headerLower := header.map byteToLowerAscii
    if listContainsSub headerLower (utf8EncodeStr "<!doctype html") ∨
        listContainsSub headerLower (utf8EncodeStr "<html") then
      .error "Received HTML instead of binary"
    else if (trimBytes header).head? = some 123 then
      .error "Received JSON error response"
    else
      .ok bytes

/-! ### Kernel version probing (kernel.rs) -/

/-- Outcome of running the kernel binary with the version argument: exit
status success flag and captured stdout (already decoded, as the source
does lossily). -/
structure RunOutput where
  statusSuccess : Bool
  stdout : String
  deriving Repr

/-- `KernelVersion` from kernel.rs. -/
structure KernelVersionM where
  version : String
  versionDetail : String
  isAlpha : Bool
  deriving Repr, DecidableEq

/-- `kernel_get_local_version` from kernel.rs: the binary's existence and the
result of spawning it (error string on a spawn failure) are inputs.  An
absent binary yields no version; a spawn failure propagates as an error; a
non-zero exit yields no version; on success the first stdout line containing
the word version provides the last whitespace-delimited token. -/
def kernelGetLocalVersion (binaryExists : Bool)
    (run : Except String RunOutput) : Except String (Option KernelVersionM) :=
  if !binaryExists then .ok none
  else
    match run with
    | .error e => .error e
    | .ok out =>
      if out.statusSuccess then
        let versionDetail := rustTrim out.stdout
        let version :=
          (((rustLines out.stdout).find? (fun l => strContainsSub l "version")).bind
            (fun l => (splitWhitespaceWords l).getLast?)).getD "unknown"
        .ok (some ⟨version, versionDetail, false⟩)
      else .ok none

/-! ### Kernel process start (singbox.rs) -/

/-- `ProxyState` from types.rs. -/
inductive ProxyStateM where
  | idle | connecting | connected | disconnecting | error
  deriving Repr, DecidableEq

/-- `CommandResult` from types.rs. -/
structure CommandResultM where
  success : Bool
  error : Option String
  deriving Repr, DecidableEq

/-- `CommandResult::ok()`. -/
def CommandResultM.okRes : CommandResultM := ⟨true, none⟩

/-- `CommandResult::err(msg)`. -/
def CommandResultM.errRes (msg : String) : CommandResultM := ⟨false, some msg⟩

/-- The mutable fields of AppState that `singbox_start` touches. -/
structure SBState where
  proxyState : ProxyStateM
  hasProcess : Bool
  startTime : Option Nat
  trafficPolling : Bool
  deriving Repr, DecidableEq

/-- `singbox_start` from singbox.rs as a state transition: the binary's
existence, the configuration-generation outcome, the spawn outcome and the
clock are inputs.  An absent binary returns the install-kernel failure
before any state change; a failed generation returns its result unchanged;
otherwise the state passes through Connecting and, on a successful spawn,
ends Connected with a stored process handle, start timestamp and a running
traffic-polling task (a spawn error propagates with the state left at
Connecting). -/
def singboxStart (binaryExists : Bool) (genResult : CommandResultM)
    (spawn : Except String Unit) (now : Nat) (st : SBState) :
    Except String (CommandResultM × SBState) :=
  if !binaryExists then
    .ok (CommandResultM.errRes "sing-box.exe not found. Please install kernel first.", st)
  else if !genResult.success then
    .ok (genResult, st)
  else
    let st := { st with proxyState := .connecting }
    match spawn with
    | .error e => .error e
    | .ok _ =>
      .ok (CommandResultM.okRes,
        { st with hasProcess := true, proxyState := .connected,
                  startTime := some now, trafficPolling := true })

/-! ### Settings (types.rs defaults, settings.rs merge) -/

/-- `AppSettings` from types.rs (ports and the latency timeout are stored as
machine integers u16/u32 in the source; the merge applies the explicit
truncation). -/
structure AppSettingsM where
  localPort : Nat
  socksPort : Nat
  allowLan : Bool
  systemProxy : Bool
  tunEnabled : Bool
  tunStack : String
  localDns : String
  remoteDns : String
  fakeDns : Bool
  blockAds : Bool
  bypassLan : Bool
  routingMode : String
  defaultRule : String
  latencyTestUrl : String
  latencyTestTimeout : Nat
  autoConnect : Bool
  minimizeToTray : Bool
  startWithWindows : Bool
  startMinimized : Bool
  exitOnClose : Bool
  theme : String
  deriving Repr, DecidableEq

/-- `AppSettings::default()` from types.rs. -/
def defaultAppSettings : AppSettingsM :=
  { localPort := 7890
    socksPort := 7891
    allowLan := false
    systemProxy := true
    tunEnabled := false
    tunStack := "mixed"
    localDns := "223.5.5.5"
    remoteDns := "https://dns.google/dns-query"
    fakeDns := false
    blockAds := false
    bypassLan := true
    routingMode := "rule"
    defaultRule := "proxy"
    latencyTestUrl := "https://www.gstatic.com/generate_204"
    latencyTestTimeout := 5000
    autoConnect := false
    minimizeToTray := true
    startWithWindows := false
    startMinimized := false
    exitOnClose := false
    theme := "dark" }

/-- The merge step of set_settings for the wire key localPort. -/
def msLocalPort (c : AppSettingsM) (obj : List (String × JVal)) : AppSettingsM :=
  match (mGet obj "localPort").bind jAsU64 with
  | some v => { c with localPort := v % 65536 }
  | none => c

/-- The merge step of set_settings for the wire key socksPort. -/
def msSocksPort (c : AppSettingsM) (obj : List (String × JVal)) : AppSettingsM :=
  match (mGet obj "socksPort").bind jAsU64 with
  | some v => { c with socksPort := v % 65536 }
  | none => c

/-- The merge step of set_settings for the wire key allowLan. -/
def msAllowLan (c : AppSettingsM) (obj : List (String × JVal)) : AppSettingsM :=
  match (mGet obj "allowLan").bind jAsBool with
  | some v => { c with allowLan := v }
  | none => c

/-- The merge step of set_settings for the wire key systemProxy. -/
def msSystemProxy (c : AppSettingsM) (obj : List (String × JVal)) : AppSettingsM :=
  match (mGet obj "systemProxy").bind jAsBool with
  | some v => { c with systemProxy := v }
  | none => c

/-- The merge step of set_settings for the wire key tunEnabled. -/
def msTunEnabled (c : AppSettingsM) (obj : List (String × JVal)) : AppSettingsM :=
  match (mGet obj "tunEnabled").bind jAsBool with
  | some v => { c with tunEnabled := v }
  | none => c

/-- The merge step of set_settings for the wire key tunStack. -/
def msTunStack (c : AppSettingsM) (obj : List (String × JVal)) : AppSettingsM :=
  match (mGet obj "tunStack").bind jAsStr with
  | some v => { c with tunStack := v }
  | none => c

/-- The merge step of set_settings for the wire key localDns. -/
def msLocalDns (c : AppSettingsM) (obj : List (String × JVal)) : AppSettingsM :=
  match (mGet obj "localDns").bind jAsStr with
  | some v => { c with localDns := v }
  | none => c

/-- The merge step of set_settings for the wire key remoteDns. -/
def msRemoteDns (c : AppSettingsM) (obj : List (String × JVal)) : AppSettingsM :=
  match (mGet obj "remoteDns").bind jAsStr with
  | some v => { c with remoteDns := v }
  | none => c

/-- The merge step of set_settings for the wire key fakeDns. -/
def msFakeDns (c : AppSettingsM) (obj : List (String × JVal)) : AppSettingsM :=
  match (mGet obj "fakeDns").bind jAsBool with
  | some v => { c with fakeDns := v }
  | none => c

/-- The merge step of set_settings for the wire key blockAds. -/
def msBlockAds (c : AppSettingsM) (obj : List (String × JVal)) : AppSettingsM :=
  match (mGet obj "blockAds").bind jAsBool with
  | some v => { c with blockAds := v }
  | none => c

/-- The merge step of set_settings for the wire key bypassLan. -/
def msBypassLan (c : AppSettingsM) (obj : List (String × JVal)) : AppSettingsM :=
  match (mGet obj "bypassLan").bind jAsBool with
  | some v => { c with bypassLan := v }
  | none => c

/-- The merge step of set_settings for the wire key routingMode. -/
def msRoutingMode (c : AppSettingsM) (obj : List (String × JVal)) : AppSettingsM :=
  match (mGet obj "routingMode").bind jAsStr with
  | some v => { c with routingMode := v }
  | none => c

/-- The merge step of set_settings for the wire key defaultRule. -/
def msDefaultRule (c : AppSettingsM) (obj : List (String × JVal)) : AppSettingsM :=
  match (mGet obj "defaultRule").bind jAsStr with
  | some v => { c with defaultRule := v }
  | none => c

/-- The merge step of set_settings for the wire key latencyTestUrl. -/
def msLatencyTestUrl (c : AppSettingsM) (obj : List (String × JVal)) : AppSettingsM :=
  match (mGet obj "latencyTestUrl").bind jAsStr with
  | some v => { c with latencyTestUrl := v }
  | none => c

/-- The merge step of set_settings for the wire key latencyTestTimeout. -/
def msLatencyTestTimeout (c : AppSettingsM) (obj : List (String × JVal)) : AppSettingsM :=
  match (mGet obj "latencyTestTimeout").bind jAsU64 with
  | some v => { c with latencyTestTimeout := v % 4294967296 }
  | none => c

/-- The merge step of set_settings for the wire key autoConnect. -/
def msAutoConnect (c : AppSettingsM) (obj : List (String × JVal)) : AppSettingsM :=
  match (mGet obj "autoConnect").bind jAsBool with
  | some v => { c with autoConnect := v }
  | none => c

/-- The merge step of set_settings for the wire key minimizeToTray. -/
def msMinimizeToTray (c : AppSettingsM) (obj : List (String × JVal)) : AppSettingsM :=
  match (mGet obj "minimizeToTray").bind jAsBool with
  | some v => { c with minimizeToTray := v }
  | none => c

/-- The merge step of set_settings for the wire key startWithWindows. -/
def msStartWithWindows (c : AppSettingsM) (obj : List (String × JVal)) : AppSettingsM :=
  match (mGet obj "startWithWindows").bind jAsBool with
  | some v => { c with startWithWindows := v }
  | none => c

/-- The merge step of set_settings for the wire key startMinimized. -/
def msStartMinimized (c : AppSettingsM) (obj : List (String × JVal)) : AppSettingsM :=
  match (mGet obj "startMinimized").bind jAsBool with
  | some v => { c with startMinimized := v }
  | none => c

/-- The merge step of set_settings for the wire key exitOnClose. -/
def msExitOnClose (c : AppSettingsM) (obj : List (String × JVal)) : AppSettingsM :=
  match (mGet obj "exitOnClose").bind jAsBool with
  | some v => { c with exitOnClose := v }
  | none => c

/-- The merge step of set_settings for the wire key theme. -/
def msTheme (c : AppSettingsM) (obj : List (String × JVal)) : AppSettingsM :=
  match (mGet obj "theme").bind jAsStr with
  | some v => { c with theme := v }
  | none => c

/-- The field-by-field merge of `set_settings` from settings.rs applied to
an object payload: each recognized wire key, when present with the right
shape, overwrites the corresponding field; u16/u32 numeric fields take the
u64 value truncated by the as-cast.  One step per source line, in source
order. -/
def mergeSettingsObj (c : AppSettingsM) (obj : List (String × JVal)) :
    AppSettingsM :=
  let c := msLocalPort c obj
  let c := msSocksPort c obj
  let c := msAllowLan c obj
  let c := msSystemProxy c obj
  let c := msTunEnabled c obj
  let c := msTunStack c obj
  let c := msLocalDns c obj
  let c := msRemoteDns c obj
  let c := msFakeDns c obj
  let c := msBlockAds c obj
  let c := msBypassLan c obj
  let c := msRoutingMode c obj
  let c := msDefaultRule c obj
  let c := msLatencyTestUrl c obj
  let c := msLatencyTestTimeout c obj
  let c := msAutoConnect c obj
  let c := msMinimizeToTray c obj
  let c := msStartWithWindows c obj
  let c := msStartMinimized c obj
  let c := msExitOnClose c obj
  let c := msTheme c obj
  c

/-- The merge of `set_settings`: non-object payloads change nothing. -/
def mergeSettings (current : AppSettingsM) (payload : JVal) : AppSettingsM :=
  match jAsObj payload with
  | none => current
  | some obj => mergeSettingsObj current obj

/-- The settings subsystem state: the settings.json contents on disk (absent
or corrupt as none) and the in-memory cached copy. -/
structure SettingsSys where
  disk : Option AppSettingsM
  cache : AppSettingsM
  deriving Repr, DecidableEq

/-- `set_settings` from settings.rs: clones the current CACHED settings,
merges the partial payload into the clone, persists the result and replaces
the cache.  Note that the on-disk content at entry is not read. -/
def setSettings (sys : SettingsSys) (payload : JVal) : SettingsSys :=
  let merged := mergeSettings sys.cache payload
  { disk := some merged, cache := merged }

/-! ### Profiles data model and commands (types.rs, profiles.rs) -/

/-- `Profile` from types.rs.  `nodeCount` is u32 in the source; the embedding
uses Nat for the length of a persisted node array (always below 2^32). -/
structure MProfile where
  id : String
  name : String
  url : String
  lastUpdate : Option Nat
  nodeCount : Nat
  enabled : Bool
  autoUpdateInterval : Nat
  dnsPreResolve : Bool
  dnsServer : Option String
  deriving Repr, DecidableEq

/-- `ProfilesData` from types.rs. -/
structure ProfilesDataM where
  profiles : List MProfile
  activeProfileId : Option String
  activeNodeTag : Option String
  deriving Repr, DecidableEq

/-- `ProfilesData::default()`. -/
def defaultProfilesData : ProfilesDataM := ⟨[], none, none⟩

/-- The persistent and cached profile state a profiles.rs command touches:
the profiles.json contents (none when missing or corrupt, read back as the
default), the per-profile node files under configs/, and the in-memory
cached `ProfilesData`. -/
structure ProfStore where
  profilesFile : Option ProfilesDataM
  nodeFiles : List (String × List Node)
  cache : ProfilesDataM

/-- `load_profiles_data`: the file contents or the default. -/
def loadProfilesData (st : ProfStore) : ProfilesDataM :=
  st.profilesFile.getD defaultProfilesData

/-- `load_profile_nodes`: a profile's node file or the empty list. -/
def nodeFileOf (files : List (String × List Node)) (id : String) : List Node :=
  ((files.find? (fun p => p.1 == id)).map Prod.snd).getD []

/-- `save_profile_nodes`: write (replace or create) a profile's node file. -/
def saveNodeFile (files : List (String × List Node)) (id : String)
    (nodes : List Node) : List (String × List Node) :=
  if files.any (fun p => p.1 == id) then
    files.map (fun p => if p.1 == id then (id, nodes) else p)
  else files ++ [(id, nodes)]

/-- `fs::remove_file` of a profile's node file. -/
def removeNodeFile (files : List (String × List Node)) (id : String) :
    List (String × List Node) :=
  files.filter (fun p => p.1 != id)

/-- Mutate the first profile with the given id, as the source's
`iter_mut().find(..)` / `position(..)` does (identity when absent). -/
def updateFirstProfile (ps : List MProfile) (id : String)
    (f : MProfile → MProfile) : List MProfile :=
  match ps with
  | [] => []
  | p :: rest =>
    if p.id == id then f p :: rest else p :: updateFirstProfile rest id f

/-- `profile_add` from profiles.rs with the subscription already fetched and
parsed (`nodes` is the parse result, `newId` the fresh UUID, `now` the
clock): saves the node file, loads profiles.json, makes the new profile
active when none is, appends it, persists and re-caches. -/
def profileAddM (st : ProfStore) (newId name url : String) (now : Nat)
    (autoUpdateInterval : Nat) (dnsPreResolve : Bool)
    (dnsServer : Option String) (nodes : List Node) : ProfStore :=
  let profile : MProfile :=
    ⟨newId, name, url, some now, nodes.length, true,
     autoUpdateInterval, dnsPreResolve, dnsServer⟩
  let files := saveNodeFile st.nodeFiles newId nodes
  let data := loadProfilesData st
  let data :=
    if data.activeProfileId.isNone then
      { data with activeProfileId := some newId,
                  activeNodeTag := nodes.head?.bind (fun n => n.tag) }
    else data
  let data := { data with profiles := data.profiles ++ [profile] }
  ⟨some data, files, data⟩

/-- `profile_update` from profiles.rs with the re-fetched subscription as
input: refreshes timestamp and node count, replaces the node file. -/
def profileUpdateM (st : ProfStore) (id : String) (now : Nat)
    (nodes : List Node) : Except String ProfStore :=
  let data := loadProfilesData st
  if !(data.profiles.any (fun p => p.id == id)) then .error "Profile not found"
  else
    let newProfiles := updateFirstProfile data.profiles id
      (fun p => { p with lastUpdate := some now, nodeCount := nodes.length })
    let data := { data with profiles := newProfiles }
    let files := saveNodeFile st.nodeFiles id nodes
    .ok ⟨some data, files, data⟩

/-- `profile_delete` from profiles.rs: removes the profile and its node
file; when it was active, the first remaining profile (if any) becomes
active and the active node tag is cleared. -/
def profileDeleteM (st : ProfStore) (id : String) : ProfStore :=
  let data := loadProfilesData st
  let data := { data with profiles := data.profiles.filter (fun p => p.id != id) }
  let files := removeNodeFile st.nodeFiles id
  let data :=
    if data.activeProfileId == some id then
      { data with activeProfileId := data.profiles.head?.map (fun p => p.id),
                  activeNodeTag := none }
    else data
  ⟨some data, files, data⟩

/-- `node_set_active` from profiles.rs: loads profiles.json, sets the tag
with no existence check, persists, re-caches. -/
def nodeSetActiveM (st : ProfStore) (tag : String) : ProfStore :=
  let data := loadProfilesData st
  let data := { data with activeNodeTag := some tag }
  ⟨some data, st.nodeFiles, data⟩

/-- `node_delete` from profiles.rs: removes the tagged node from the active
profile's node file, resyncs that profile's node count and, when the
deleted tag was active, moves the active tag to the new first node. -/
def nodeDeleteM (st : ProfStore) (tag : String) : Except String ProfStore :=
  let data := loadProfilesData st
  match data.activeProfileId with
  | none => .error "No active profile"
  | some profileId =>
    let nodes := nodeFileOf st.nodeFiles profileId
    let newNodes := nodes.filter (fun n => n.tag != some tag)
    if newNodes.length = nodes.length then .error "Node not found"
    else
      let files := saveNodeFile st.nodeFiles profileId newNodes
      let newProfiles := updateFirstProfile data.profiles profileId
        (fun p => { p with nodeCount := newNodes.length })
      let data := { data with profiles := newProfiles }
      let data :=
        if data.activeNodeTag == some tag then
          { data with activeNodeTag := newNodes.head?.bind (fun n => n.tag) }
        else data
      .ok ⟨some data, files, data⟩

/-- `node_add` from profiles.rs: parses the link, appends the node to the
target (explicit or active) profile's node file, resyncs its node count. -/
def nodeAddM (st : ProfStore) (link : String) (profileId : Option String) :
    Except String ProfStore :=
  match parseNodeLink link with
  | none => .error "Invalid node link"
  | some node =>
    let data := loadProfilesData st
    match profileId.orElse (fun _ => data.activeProfileId) with
    | none => .error "No target profile"
    | some targetId =>
      if !(data.profiles.any (fun p => p.id == targetId)) then
        .error "Profile not found"
      else
        let nodes := nodeFileOf st.nodeFiles targetId
        let newNodes := nodes ++ [node]
        let files := saveNodeFile st.nodeFiles targetId newNodes
        let newProfiles := updateFirstProfile data.profiles targetId
          (fun p => { p with nodeCount := newNodes.length })
        let data := { data with profiles := newProfiles }
        .ok ⟨some data, files, data⟩

/-- `profile_import_content` from profiles.rs: parses the pasted content
with `parse_subscription_content`, rejects an empty parse, then proceeds
exactly like `profile_add`. -/
def profileImportContentM (jsonParse yamlParse : String → Option JVal)
    (st : ProfStore) (newId name : String) (now : Nat)
    (autoUpdateInterval : Nat) (dnsPreResolve : Bool)
    (dnsServer : Option String) (content : String) : Except String ProfStore :=
  match parseSubscriptionContent jsonParse yamlParse content with
  | .error e => .error e
  | .ok nodes =>
    if nodes.isEmpty then .error "No valid nodes found in content"
    else
      let profile : MProfile :=
        ⟨newId, name, "", some now, nodes.length, true,
         autoUpdateInterval, dnsPreResolve, dnsServer⟩
      let files := saveNodeFile st.nodeFiles newId nodes
      let data := loadProfilesData st
      let data :=
        if data.activeProfileId.isNone then
          { data with activeProfileId := some newId
                      activeNodeTag := nodes.head?.bind (fun n => n.tag) }
        else data
      let data := { data with profiles := data.profiles ++ [profile] }
      .ok ⟨some data, files, data⟩

/-- `RuleSet` from types.rs. -/
structure RuleSetM where
  id : String
  tag : String
  name : String
  ruleType : String
  format : String
  url : Option String
  outboundMode : String
  outboundValue : Option String
  enabled : Bool
  isBuiltIn : Bool
  deriving Repr, DecidableEq

/-- The rule-set subsystem state: rulesets.json contents and the cache. -/
structure RulesetSys where
  disk : Option (List RuleSetM)
  cache : List RuleSetM
  deriving Repr, DecidableEq

/-- `ruleset_save` from rulesets.rs: persists exactly the request payload
and replaces the cache with it. -/
def rulesetSave (_sys : RulesetSys) (payload : List RuleSetM) : RulesetSys :=
  ⟨some payload, payload⟩

/-! ### Invariants -/

/-- The node-count invariant of the spec: every profile recorded in the
persisted profiles.json carries a nodeCount equal to the length of its
persisted node file. -/
def profilesInv (st : ProfStore) : Prop :=
  ∀ p ∈ (loadProfilesData st).profiles,
    p.nodeCount = (nodeFileOf st.nodeFiles p.id).length

/-- Distinctness of the persisted profile ids (UUID-generated in the
source). -/
def idsNodup (st : ProfStore) : Prop :=
  ((loadProfilesData st).profiles.map (fun p => p.id)).Nodup

/-! ### Spec-side predicates (phrasing claims, to be compared with the
source-derived definitions above) -/

/-- Spec phrasing for C6: the payload begins, case-insensitively, with the
given byte pattern. -/
def specBeginsWithCI (bytes pattern : List Nat) : Bool :=
  (pattern.map byteToLowerAscii).isPrefixOf (bytes.map byteToLowerAscii)

/-- Spec phrasing for C6: the first non-whitespace byte of the payload. -/
def specFirstNonWsByte (bytes : List Nat) : Option Nat :=
  (bytes.dropWhile isAsciiWsByte).head?

/-- An outbound object that is the selector tagged PROXY. -/
def isProxySelectorObj (o : JVal) : Bool :=
  ((jGet o "type").bind jAsStr == some "selector") &&
  ((jGet o "tag").bind jAsStr == some "PROXY")

/-- The proxy-type entries of a node list. -/
def proxyNodesOf (nodes : List JVal) : List JVal :=
  nodes.filter (fun n => isProxyType (jTypeOf n))

/-- The tags of the tagged proxy-type entries of a node list. -/
def proxyTagsOf (nodes : List JVal) : List String :=
  (nodes.filter (fun n => isProxyType (jTypeOf n))).filterMap jTagOf

/-- The JSON strategy of `parse_subscription_content` does not apply: the
body fails to parse, or parses without a proxies array and without an
outbounds array. -/
def jsonStrategyNoMatch (jsonParse : String → Option JVal) (content : String) :
    Prop :=
  ∀ j, jsonParse content = some j →
    (jGet j "proxies").bind jAsArr = none ∧ (jGet j "outbounds").bind jAsArr = none

/-- The YAML strategy does not apply: parse failure or no proxies array. -/
def yamlStrategyNoMatch (yamlParse : String → Option JVal) (content : String) :
    Prop :=
  ∀ y, yamlParse content = some y → (jGet y "proxies").bind jAsArr = none

/-- The base64 strategy yields no nodes: whenever the trimmed body decodes
(base64, then UTF-8), no line parses as a node link. -/
def base64StageEmpty (content : String) : Prop :=
  ∀ s, (base64Decode (rustTrim content)).bind utf8Decode = some s →
    linkNodesOf s = []

/-- The freshly generated UUID of a new profile does not collide with a
persisted profile id. -/
def freshProfileId (st : ProfStore) (newId : String) : Prop :=
  newId ∉ (loadProfilesData st).profiles.map (fun p => p.id)

/-! ### Concrete instances used by the theorems and witnesses -/

/-- The C5 node: shadowsocks, method aes-256-gcm, password p, host h, port
1234, tag T. -/
def ssExportNode : Node :=
  ⟨some "T", some "shadowsocks", some "h", some 1234,
   [("method", .str "aes-256-gcm"), ("password", .str "p")]⟩

/-- A proxy-type node with no tag (a legal node-file entry: the kernel-native
subscription path deserializes outbounds whose tag is absent). -/
def taglessVmessNode : JVal := .obj [("type", .str "vmess")]

/-- A body that is valid JSON with an empty proxies array. -/
def emptyProxiesBody : String := "\x7b\"proxies\": []\x7d"

/-- serde_json on `emptyProxiesBody` (as an oracle over all bodies). -/
def jpProxiesEmpty : String → Option JVal :=
  fun _ => some (.obj [("proxies", .arr [])])

/-- serde_yaml on `emptyProxiesBody` (YAML is a JSON superset). -/
def ypProxiesEmpty : String → Option JVal :=
  fun _ => some (.obj [("proxies", .arr [])])

/-- A 17-byte payload that does not begin with an HTML marker and whose
first non-whitespace byte is a digit, but that contains an HTML marker
within its first 64 bytes. -/
def htmlInsidePayload : List Nat := utf8EncodeStr "0123456789<html>x"

/-- Settings state whose disk and cache agree. -/
def sysCacheClean : SettingsSys := ⟨some defaultAppSettings, defaultAppSettings⟩

/-- Settings state with the same disk but a divergent (stale-disk) cache. -/
def sysCacheStale : SettingsSys :=
  ⟨some defaultAppSettings, { defaultAppSettings with theme := "light" }⟩

/-- One persisted shadowsocks node used by the witness store. -/
def witNode : Node := ⟨some "t1", some "shadowsocks", some "h", some 80, []⟩

/-- One persisted profile (node count 1) used by the witness store. -/
def witProfile : MProfile :=
  ⟨"p1", "Profile 1", "https://example.com/sub", some 0, 1, true, 0, false, none⟩

/-- A consistent profile store: one profile, active, with one node. -/
def witStore : ProfStore :=
  ⟨some ⟨[witProfile], some "p1", some "t1"⟩,
   [("p1", [witNode])],
   ⟨[witProfile], some "p1", some "t1"⟩⟩

/-! ## Theorems -/

/-- find? after a replacing save hits the saved entry (replace case). -/
theorem find?_map_replace (fs : List (String × List Node)) (id : String)
    (ns : List Node) (h : fs.any (fun p => p.1 == id) = true) :
    (fs.map (fun p => if p.1 == id then (id, ns) else p)).find?
      (fun p => p.1 == id) = some (id, ns) := by
  induction fs with
  | nil => simp at h
  | cons hd tl ih =>
    simp only [List.any_cons, Bool.or_eq_true] at h
    by_cases h1 : (hd.1 == id) = true
    · simp only [List.map_cons, if_pos h1, List.find?_cons, beq_self_eq_true]
    · have h1f : (hd.1 == id) = false := by simpa using h1
      have h2 : tl.any (fun p => p.1 == id) = true := by
        rcases h with h | h
        · exact absurd h h1
        · exact h
      simp only [List.map_cons, if_neg h1, List.find?_cons]
      rw [h1f]
      exact ih h2

/-- find? after an appending save hits the appended entry (create case). -/
theorem find?_append_new (fs : List (String × List Node)) (id : String)
    (ns : List Node) (h : fs.any (fun p => p.1 == id) = false) :
    (fs ++ [(id, ns)]).find? (fun p => p.1 == id) = some (id, ns) := by
  induction fs with
  | nil => simp only [List.nil_append, List.find?_cons, beq_self_eq_true]
  | cons hd tl ih =>
    simp only [List.any_cons, Bool.or_eq_false_iff] at h
    simp only [List.cons_append, List.find?_cons]
    rw [h.1]
    exact ih h.2

/-- The saved node file reads back as the saved nodes. -/
theorem nodeFileOf_save_same (fs : List (String × List Node)) (id : String)
    (ns : List Node) : nodeFileOf (saveNodeFile fs id ns) id = ns := by
  unfold nodeFileOf saveNodeFile
  by_cases h : fs.any (fun p => p.1 == id)
  · rw [if_pos h, find?_map_replace fs id ns h]
    rfl
  · have hf : fs.any (fun p => p.1 == id) = false := by
      cases hb : fs.any (fun p => p.1 == id) with
      | false => rfl
      | true => exact absurd hb h
    rw [if_neg h, find?_append_new fs id ns hf]
    rfl

/-- find? for another key is unchanged by a replacing save. -/
theorem find?_map_replace_other (fs : List (String × List Node)) (id k : String)
    (ns : List Node) (hk : k ≠ id) :
    (fs.map (fun p => if p.1 == id then (id, ns) else p)).find?
      (fun p => p.1 == k) = fs.find? (fun p => p.1 == k) := by
  induction fs with
  | nil => rfl
  | cons hd tl ih =>
    by_cases h1 : (hd.1 == id) = true
    · have hid : hd.1 = id := by simpa using h1
      have hpk : (hd.1 == k) = false := by
        simp only [beq_eq_false_iff_ne, ne_eq, hid]
        exact fun hc => hk hc.symm
      have hik : ((id : String) == k) = false := by
        simp only [beq_eq_false_iff_ne, ne_eq]
        exact fun hc => hk hc.symm
      simp only [List.map_cons, if_pos h1, List.find?_cons, hik, hpk]
      exact ih
    · simp only [List.map_cons, if_neg h1, List.find?_cons]
      cases h2 : (hd.1 == k) with
      | true => rfl
      | false => exact ih

/-- find? for another key is unchanged by an appending save. -/
theorem find?_append_other (fs : List (String × List Node)) (id k : String)
    (ns : List Node) (hk : k ≠ id) :
    (fs ++ [(id, ns)]).find? (fun p => p.1 == k) = fs.find? (fun p => p.1 == k) := by
  induction fs with
  | nil =>
    have hik : ((id : String) == k) = false := by
      simp only [beq_eq_false_iff_ne, ne_eq]
      exact fun hc => hk hc.symm
    simp only [List.nil_append, List.find?_cons, hik, List.find?_nil]
  | cons hd tl ih =>
    simp only [List.cons_append, List.find?_cons]
    cases h2 : (hd.1 == k) with
    | true => rfl
    | false => exact ih

/-- A node file other than the saved one is unchanged by a save. -/
theorem nodeFileOf_save_other (fs : List (String × List Node)) (id k : String)
    (ns : List Node) (hk : k ≠ id) :
    nodeFileOf (saveNodeFile fs id ns) k = nodeFileOf fs k := by
  unfold nodeFileOf saveNodeFile
  by_cases h : fs.any (fun p => p.1 == id)
  · rw [if_pos h, find?_map_replace_other fs id k ns hk]
  · rw [if_neg h, find?_append_other fs id k ns hk]

/-- Membership in a first-match profile update under distinct ids: an
element is either an untouched profile with a different id, or the image of
the unique profile carrying the id. -/
theorem mem_updateFirstProfile {ps : List MProfile} {pid : String}
    {f : MProfile → MProfile}
    (hnd : (ps.map (fun p => p.id)).Nodup) {q : MProfile}
    (hq : q ∈ updateFirstProfile ps pid f) :
    (q ∈ ps ∧ q.id ≠ pid) ∨ (∃ p, p ∈ ps ∧ p.id = pid ∧ q = f p) := by
  induction ps with
  | nil => simp [updateFirstProfile] at hq
  | cons hd tl ih =>
    rw [List.map_cons, List.nodup_cons] at hnd
    unfold updateFirstProfile at hq
    by_cases h1 : (hd.id == pid) = true
    · rw [if_pos h1] at hq
      have hid : hd.id = pid := by simpa using h1
      rcases List.mem_cons.mp hq with rfl | hmem
      · exact Or.inr ⟨hd, List.mem_cons_self _ _, hid, rfl⟩
      · refine Or.inl ⟨List.mem_cons_of_mem _ hmem, ?_⟩
        intro hc
        exact hnd.1 (hid ▸ hc ▸ List.mem_map_of_mem (fun p => p.id) hmem)
    · rw [if_neg h1] at hq
      have hid : hd.id ≠ pid := by simpa using h1
      rcases List.mem_cons.mp hq with rfl | hmem
      · exact Or.inl ⟨List.mem_cons_self _ _, hid⟩
      · rcases ih hnd.2 hmem with ⟨hm, hne⟩ | ⟨p, hp, hpid, hfp⟩
        · exact Or.inl ⟨List.mem_cons_of_mem _ hm, hne⟩
        · exact Or.inr ⟨p, List.mem_cons_of_mem _ hp, hpid, hfp⟩

/-- profile_add preserves the node-count invariant. -/
theorem profileAddM_inv (st : ProfStore) (hinv : profilesInv st)
    (newId name url : String) (now aui : Nat) (dpr : Bool) (dns : Option String)
    (nodes : List Node) (hfresh : freshProfileId st newId) :
    profilesInv (profileAddM st newId name url now aui dpr dns nodes) := by
  intro p hp
  have hprofiles :
      (loadProfilesData (profileAddM st newId name url now aui dpr dns nodes)).profiles =
      (loadProfilesData st).profiles ++
        [⟨newId, name, url, some now, nodes.length, true, aui, dpr, dns⟩] := by
    simp only [profileAddM, loadProfilesData, Option.getD_some]
    split <;> rfl
  rw [hprofiles] at hp
  show p.nodeCount = (nodeFileOf (saveNodeFile st.nodeFiles newId nodes) p.id).length
  rcases List.mem_append.mp hp with hold | hnew
  · have hne : p.id ≠ newId := by
      intro hc
      exact hfresh (hc ▸ List.mem_map_of_mem (fun q => q.id) hold)
    rw [nodeFileOf_save_other st.nodeFiles newId p.id nodes hne]
    exact hinv p hold
  · have hpv : p = ⟨newId, name, url, some now, nodes.length, true, aui, dpr, dns⟩ :=
      List.mem_singleton.mp hnew
    subst hpv
    rw [nodeFileOf_save_same]

/-- profile_update preserves the node-count invariant. -/
theorem profileUpdateM_inv (st : ProfStore) (hinv : profilesInv st)
    (hnd : idsNodup st) (id : String) (now : Nat) (nodes : List Node)
    (st' : ProfStore) (h : profileUpdateM st id now nodes = .ok st') :
    profilesInv st' := by
  simp only [profileUpdateM] at h
  split at h
  · simp at h
  · injection h with h2
    subst h2
    intro p hp
    have hp' : p ∈ updateFirstProfile (loadProfilesData st).profiles id
        (fun q => { q with lastUpdate := some now, nodeCount := nodes.length }) := hp
    show p.nodeCount = (nodeFileOf (saveNodeFile st.nodeFiles id nodes) p.id).length
    rcases mem_updateFirstProfile hnd hp' with ⟨hmem, hne⟩ | ⟨q, hq, hqid, hfq⟩
    · rw [nodeFileOf_save_other st.nodeFiles id p.id nodes hne]
      exact hinv p hmem
    · subst hfq
      show nodes.length = (nodeFileOf (saveNodeFile st.nodeFiles id nodes) q.id).length
      rw [hqid, nodeFileOf_save_same]

/-- node_delete preserves the node-count invariant. -/
theorem nodeDeleteM_inv (st : ProfStore) (hinv : profilesInv st)
    (hnd : idsNodup st) (tag : String) (st' : ProfStore)
    (h : nodeDeleteM st tag = .ok st') : profilesInv st' := by
  simp only [nodeDeleteM] at h
  split at h
  · simp at h
  · rename_i profileId hpid
    split at h
    · simp at h
    · rename_i hlen
      injection h with h2
      subst h2
      intro p hp
      have key : ∀ q : MProfile,
          q ∈ updateFirstProfile (loadProfilesData st).profiles profileId
            (fun r => { r with nodeCount :=
              ((nodeFileOf st.nodeFiles profileId).filter
                (fun n => n.tag != some tag)).length }) →
          q.nodeCount = (nodeFileOf (saveNodeFile st.nodeFiles profileId
            ((nodeFileOf st.nodeFiles profileId).filter
              (fun n => n.tag != some tag))) q.id).length := by
        intro q hq
        rcases mem_updateFirstProfile hnd hq with ⟨hmem, hne⟩ | ⟨r, hr, hrid, hfr⟩
        · rw [nodeFileOf_save_other st.nodeFiles profileId q.id _ hne]
          exact hinv q hmem
        · subst hfr
          show ((nodeFileOf st.nodeFiles profileId).filter
              (fun n => n.tag != some tag)).length =
            (nodeFileOf (saveNodeFile st.nodeFiles profileId
              ((nodeFileOf st.nodeFiles profileId).filter
                (fun n => n.tag != some tag))) r.id).length
          rw [hrid, nodeFileOf_save_same]
      split at hp
      · exact key p hp
      · exact key p hp

/-- node_add preserves the node-count invariant. -/
theorem nodeAddM_inv (st : ProfStore) (hinv : profilesInv st)
    (hnd : idsNodup st) (link : String) (profileId : Option String)
    (st' : ProfStore) (h : nodeAddM st link profileId = .ok st') :
    profilesInv st' := by
  simp only [nodeAddM] at h
  split at h
  · simp at h
  · rename_i node hnode
    split at h
    · simp at h
    · rename_i targetId htarget
      split at h
      · simp at h
      · injection h with h2
        subst h2
        intro p hp
        have hp' : p ∈ updateFirstProfile (loadProfilesData st).profiles targetId
            (fun r => { r with nodeCount :=
              (nodeFileOf st.nodeFiles targetId ++ [node]).length }) := hp
        show p.nodeCount = (nodeFileOf (saveNodeFile st.nodeFiles targetId
          (nodeFileOf st.nodeFiles targetId ++ [node])) p.id).length
        rcases mem_updateFirstProfile hnd hp' with ⟨hmem, hne⟩ | ⟨r, hr, hrid, hfr⟩
        · rw [nodeFileOf_save_other st.nodeFiles targetId p.id _ hne]
          exact hinv p hmem
        · subst hfr
          show (nodeFileOf st.nodeFiles targetId ++ [node]).length =
            (nodeFileOf (saveNodeFile st.nodeFiles targetId
              (nodeFileOf st.nodeFiles targetId ++ [node])) r.id).length
          rw [hrid, nodeFileOf_save_same]

/-- profile_import_content preserves the node-count invariant. -/
theorem profileImportContentM_inv (jsonParse yamlParse : String → Option JVal)
    (st : ProfStore) (hinv : profilesInv st) (newId name : String) (now aui : Nat)
    (dpr : Bool) (dns : Option String) (content : String) (st' : ProfStore)
    (hfresh : freshProfileId st newId)
    (h : profileImportContentM jsonParse yamlParse st newId name now aui dpr dns
      content = .ok st') : profilesInv st' := by
  simp only [profileImportContentM] at h
  split at h
  · simp at h
  · rename_i nodes hnodes
    split at h
    · simp at h
    · injection h with h2
      subst h2
      intro p hp
      show p.nodeCount = (nodeFileOf (saveNodeFile st.nodeFiles newId nodes) p.id).length
      have hp' : p ∈ ((if (loadProfilesData st).activeProfileId.isNone then
          { loadProfilesData st with activeProfileId := some newId, activeNodeTag := nodes.head?.bind (fun n => n.tag) }
        else loadProfilesData st)).profiles ++
          [⟨newId, name, "", some now, nodes.length, true, aui, dpr, dns⟩] := hp
      have hp2 : p ∈ (loadProfilesData st).profiles ++
          [⟨newId, name, "", some now, nodes.length, true, aui, dpr, dns⟩] := by
        rcases List.mem_append.mp hp' with hl | hr
        · refine List.mem_append.mpr (Or.inl ?_)
          split at hl
          · exact hl
          · exact hl
        · exact List.mem_append.mpr (Or.inr hr)
      rcases List.mem_append.mp hp2 with hold | hnew
      · have hne : p.id ≠ newId := by
          intro hc
          exact hfresh (hc ▸ List.mem_map_of_mem (fun q => q.id) hold)
        rw [nodeFileOf_save_other st.nodeFiles newId p.id nodes hne]
        exact hinv p hold
      · have hpv : p = ⟨newId, name, "", some now, nodes.length, true, aui, dpr, dns⟩ :=
          List.mem_singleton.mp hnew
        subst hpv
        rw [nodeFileOf_save_same]

/-- C2: after every mutating profile/node operation — profile add, profile
update, node delete, node add, profile import — every persisted profile's
nodeCount equals the length of its persisted node-list file. -/
theorem c2_node_count_invariant (st : ProfStore)
    (hinv : profilesInv st) (hnd : idsNodup st) :
    (∀ newId name url now aui dpr dns nodes, freshProfileId st newId →
      profilesInv (profileAddM st newId name url now aui dpr dns nodes)) ∧
    (∀ id now nodes st', profileUpdateM st id now nodes = .ok st' →
      profilesInv st') ∧
    (∀ tag st', nodeDeleteM st tag = .ok st' → profilesInv st') ∧
    (∀ link pid st', nodeAddM st link pid = .ok st' → profilesInv st') ∧
    (∀ jsonParse yamlParse newId name now aui dpr dns content st',
      freshProfileId st newId →
      profileImportContentM jsonParse yamlParse st newId name now aui dpr dns
        content = .ok st' →
      profilesInv st') :=
  ⟨fun newId name url now aui dpr dns nodes hfresh =>
      profileAddM_inv st hinv newId name url now aui dpr dns nodes hfresh,
   fun id now nodes st' h => profileUpdateM_inv st hinv hnd id now nodes st' h,
   fun tag st' h => nodeDeleteM_inv st hinv hnd tag st' h,
   fun link pid st' h => nodeAddM_inv st hinv hnd link pid st' h,
   fun jp yp newId name now aui dpr dns content st' hfresh h =>
      profileImportContentM_inv jp yp st hinv newId name now aui dpr dns content
        st' hfresh h⟩

/-- C2 witness: the invariant holds on the concrete store and is preserved
by a concrete profile_add. -/
theorem c2_witness :
    profilesInv (profileAddM witStore "p2" "New" "https://example.org" 5 0 false
      none [witNode]) :=
  (c2_node_count_invariant witStore (by unfold profilesInv; decide)
      (by unfold idsNodup; decide)).1
    "p2" "New" "https://example.org" 5 0 false none [witNode]
    (by unfold freshProfileId; decide)

/-- Step 1 of the outbound assembly appends exactly the proxy-type nodes
and collects exactly the tags of the tagged ones. -/
theorem assembleStep1_go (ns : List JVal) (acc : List JVal × List String) :
    assembleStep1.go acc ns = (acc.1 ++ proxyNodesOf ns, acc.2 ++ proxyTagsOf ns) := by
  induction ns generalizing acc with
  | nil => simp [assembleStep1.go, proxyNodesOf, proxyTagsOf]
  | cons hd tl ih =>
    unfold assembleStep1.go
    by_cases hpt : isProxyType (jTypeOf hd) = true
    · cases htag : jTagOf hd with
      | some tag =>
        simp only [hpt, if_true, htag]
        rw [ih]
        simp [proxyNodesOf, proxyTagsOf, List.filter_cons, hpt, htag]
      | none =>
        simp only [hpt, if_true, htag]
        rw [ih]
        simp [proxyNodesOf, proxyTagsOf, List.filter_cons, hpt, htag]
    · have hf : isProxyType (jTypeOf hd) = false := by
        cases hb : isProxyType (jTypeOf hd) with
        | false => rfl
        | true => exact absurd hb hpt
      simp only [hf, Bool.false_eq_true, if_false]
      rw [ih]
      simp [proxyNodesOf, proxyTagsOf, List.filter_cons, hf]

/-- Step 1 from the empty accumulator. -/
theorem assembleStep1_spec (ns : List JVal) :
    assembleStep1 ns = (proxyNodesOf ns, proxyTagsOf ns) := by
  unfold assembleStep1
  rw [assembleStep1_go]
  simp

/-- C1 amended: with no rule-set references, the generated outbound list is
the PROXY selector over the tags of the tagged proxy-type nodes (present
exactly when at least one tagged proxy-type node exists, at position 0),
then the proxy-type nodes, then the auto urltest (present exactly when more
than one tagged proxy-type node exists), then the fixed direct and block
outbounds last. -/
theorem c1_amended_outbound_shape (rawNodes : List JVal)
    (storedActiveNodeTag : Option String) (allProfiles : List ProfileInfoM)
    (latencyTestUrl : String) :
    (generateOutbounds rawNodes storedActiveNodeTag allProfiles [] []
      latencyTestUrl).1 =
      (if (proxyTagsOf (rawNodes.map processNode)).isEmpty then []
       else [mkProxySelector (proxyTagsOf (rawNodes.map processNode))
         (storedActiveNodeTag.orElse
           (fun _ => (rawNodes.map processNode).head?.bind jTagOf))]) ++
      proxyNodesOf (rawNodes.map processNode) ++
      (if (proxyTagsOf (rawNodes.map processNode)).length > 1 then
        [mkAutoUrltest (proxyTagsOf (rawNodes.map processNode)) latencyTestUrl]
       else []) ++
      [mkDirectOutbound, mkBlockOutbound] := by
  simp only [generateOutbounds, assembleStep2, assembleStep3, List.foldl_nil,
    assembleStep1_spec]
  by_cases he : (proxyTagsOf (rawNodes.map processNode)).isEmpty = true
  · have hnil : proxyTagsOf (rawNodes.map processNode) = [] :=
      List.isEmpty_iff.mp he
    simp [he, hnil]
  · have hne : (!(proxyTagsOf (rawNodes.map processNode)).isEmpty) = true := by
      cases hb : (proxyTagsOf (rawNodes.map processNode)).isEmpty with
      | false => rfl
      | true => exact absurd hb he
    by_cases hlen : (proxyTagsOf (rawNodes.map processNode)).length > 1
    · simp [he, hne, hlen]
    · simp [he, hne, hlen]

/-- C1 counterexample: a node file holding one proxy-type node without a
tag.  The claim says the PROXY selector is inserted at position 0 whenever
at least one node has a proxy type, but the generated outbounds contain no
PROXY selector. -/
theorem c1_counterexample :
    isProxyType (jTypeOf taglessVmessNode) = true ∧
    ((generateOutbounds [taglessVmessNode] none [] [] []
      "https://www.gstatic.com/generate_204").1.any isProxySelectorObj) = false :=
  ⟨rfl, rfl⟩

/-- C5: for the shadowsocks node with method aes-256-gcm, password p, server
h, port 1234 and tag T, `export_node_to_link` produces exactly
`ss://` ++ base64 of `aes-256-gcm:p` ++ `@h:1234#T`, and `parse_node_link`
applied to that string recovers a node with the same tag, type, server,
port, method and password. -/
theorem c5_ss_link_round_trip :
    exportNodeToLink ssExportNode =
      "ss://" ++ base64Encode (utf8EncodeStr "aes-256-gcm:p") ++ "@h:1234#T" ∧
    (parseNodeLink (exportNodeToLink ssExportNode)).map (fun n => n.tag) =
      some (some "T") ∧
    (parseNodeLink (exportNodeToLink ssExportNode)).map (fun n => n.outboundType) =
      some (some "shadowsocks") ∧
    (parseNodeLink (exportNodeToLink ssExportNode)).map (fun n => n.server) =
      some (some "h") ∧
    (parseNodeLink (exportNodeToLink ssExportNode)).map (fun n => n.serverPort) =
      some (some 1234) ∧
    (parseNodeLink (exportNodeToLink ssExportNode)).map
        (fun n => (mGet n.extra "method").bind jAsStr) = some (some "aes-256-gcm") ∧
    (parseNodeLink (exportNodeToLink ssExportNode)).map
        (fun n => (mGet n.extra "password").bind jAsStr) = some (some "p") :=
  ⟨rfl, rfl, rfl, rfl, rfl, rfl, rfl⟩

/-- C6 counterexample: a successful-status payload of length at least 10
that does not begin (case-insensitively) with an HTML marker and whose first
non-whitespace byte is not an opening brace, which the claim says is
accepted, is rejected by `download_and_verify` because the marker occurs
later within the first 64 bytes (the source checks contains, not begins
with). -/
theorem c6_counterexample :
    10 ≤ htmlInsidePayload.length ∧
    specBeginsWithCI htmlInsidePayload (utf8EncodeStr "<!doctype html") = false ∧
    specBeginsWithCI htmlInsidePayload (utf8EncodeStr "<html") = false ∧
    specFirstNonWsByte htmlInsidePayload ≠ some 123 ∧
    downloadAndVerify 200 htmlInsidePayload =
      .error "Received HTML instead of binary" := by
  refine ⟨by decide, by decide, by decide, by decide, rfl⟩

/-- C6 amended: a successful-status payload is accepted iff it is at least
10 bytes long, its first 64 bytes do not contain (case-insensitively) the
markers for an HTML doctype or an html element anywhere, and the trimmed
first 64 bytes do not start with an opening brace. -/
theorem c6_amended_verification (bytes : List Nat) :
    downloadAndVerify 200 bytes = .ok bytes ↔
      (10 ≤ bytes.length ∧
       listContainsSub ((bytes.take 64).map byteToLowerAscii)
         (utf8EncodeStr "<!doctype html") = false ∧
       listContainsSub ((bytes.take 64).map byteToLowerAscii)
         (utf8EncodeStr "<html") = false ∧
       (trimBytes (bytes.take 64)).head? ≠ some 123) := by
  constructor
  · intro h
    simp only [downloadAndVerify] at h
    split at h
    · exact absurd h (by simp)
    · split at h
      · exact absurd h (by simp)
      · split at h
        · exact absurd h (by simp)
        · split at h
          · exact absurd h (by simp)
          · rename_i hstat hlen hhtml hbrace
            refine ⟨by omega, ?_, ?_, hbrace⟩
            · rcases Bool.eq_false_or_eq_true
                (listContainsSub ((bytes.take 64).map byteToLowerAscii)
                  (utf8EncodeStr "<!doctype html")) with ht | hf
              · exact absurd (Or.inl ht) hhtml
              · exact hf
            · rcases Bool.eq_false_or_eq_true
                (listContainsSub ((bytes.take 64).map byteToLowerAscii)
                  (utf8EncodeStr "<html")) with ht | hf
              · exact absurd (Or.inr ht) hhtml
              · exact hf
  · rintro ⟨h10, hdoc, hhtml, hbrace⟩
    simp only [downloadAndVerify]
    rw [if_neg (by decide), if_neg (by omega),
      if_neg (by simp only [hdoc, hhtml]; simp), if_neg hbrace]

/-- C7 counterexample: when the binary exists but spawning it fails, the
claim says the command yields the no-version result, but
`kernel_get_local_version` propagates the spawn failure as an error. -/
theorem c7_counterexample :
    kernelGetLocalVersion true (.error "spawn failure") = .error "spawn failure" :=
  rfl

/-- C7 amended: an absent binary and a non-zero exit status both yield the
no-version result, but a failure to run the binary (spawn error) propagates
as an error carrying the spawn message. -/
theorem c7_amended_local_version (run : Except String RunOutput) :
    kernelGetLocalVersion false run = .ok none ∧
    (∀ out, run = .ok out → out.statusSuccess = false →
      kernelGetLocalVersion true run = .ok none) ∧
    (∀ e, run = .error e → kernelGetLocalVersion true run = .error e) := by
  refine ⟨rfl, ?_, ?_⟩
  · intro out hrun hfail
    subst hrun
    simp [kernelGetLocalVersion, hfail]
  · intro e hrun
    subst hrun
    rfl

/-- C7 amended witness at concrete inputs. -/
theorem c7_amended_witness :
    kernelGetLocalVersion false (.ok ⟨true, "v"⟩) = .ok none ∧
    kernelGetLocalVersion true (.ok ⟨false, "v"⟩) = .ok none ∧
    kernelGetLocalVersion true (.error "e") = .error "e" :=
  ⟨(c7_amended_local_version (.ok ⟨true, "v"⟩)).1,
   (c7_amended_local_version (.ok ⟨false, "v"⟩)).2.1 ⟨false, "v"⟩ rfl rfl,
   (c7_amended_local_version (.error "e")).2.2 "e" rfl⟩

/-- C8: when the kernel binary is absent, `singbox_start` returns the
install-kernel failure result with the state unchanged: it never reaches
Connecting, stores no process handle and records no start timestamp. -/
theorem c8_start_without_binary (genResult : CommandResultM)
    (spawn : Except String Unit) (now : Nat) (st : SBState) :
    singboxStart false genResult spawn now st =
      .ok (CommandResultM.errRes
        "sing-box.exe not found. Please install kernel first.", st) ∧
    strContainsSub "sing-box.exe not found. Please install kernel first."
      "Please install kernel first" = true :=
  ⟨rfl, by decide⟩

/-- C9 counterexample: two states with identical on-disk settings but
different in-memory caches produce different persisted results under
`set_settings` with the same (empty) payload — the persisted result is a
function of the cache, not of the on-disk content at entry. -/
theorem c9_counterexample :
    sysCacheClean.disk = sysCacheStale.disk ∧
    (setSettings sysCacheClean (.obj [])).disk ≠
      (setSettings sysCacheStale (.obj [])).disk :=
  ⟨rfl, by decide⟩

/-- C9 amended: the profile/node commands (here `node_set_active`) persist a
function of the on-disk profiles data and the payload; `ruleset_save`
persists exactly its payload; but `set_settings` persists a function of the
in-memory cached settings and the payload (it does not reload the disk). -/
theorem c9_amended_mutation_sources :
    (∀ (s1 s2 : ProfStore) (tag : String), s1.profilesFile = s2.profilesFile →
      (nodeSetActiveM s1 tag).profilesFile = (nodeSetActiveM s2 tag).profilesFile) ∧
    (∀ (r1 r2 : RulesetSys) (payload : List RuleSetM),
      (rulesetSave r1 payload).disk = (rulesetSave r2 payload).disk) ∧
    (∀ (s1 s2 : SettingsSys) (payload : JVal), s1.cache = s2.cache →
      (setSettings s1 payload).disk = (setSettings s2 payload).disk) := by
  refine ⟨?_, ?_, ?_⟩
  · intro s1 s2 tag h
    simp [nodeSetActiveM, loadProfilesData, h]
  · intro r1 r2 payload
    rfl
  · intro s1 s2 payload h
    simp [setSettings, h]

/-- C9 amended witness at concrete inputs. -/
theorem c9_amended_witness :
    (nodeSetActiveM witStore "t1").profilesFile =
      (nodeSetActiveM witStore "t1").profilesFile ∧
    (setSettings sysCacheClean (.obj [])).disk =
      (setSettings ⟨none, defaultAppSettings⟩ (.obj [])).disk :=
  ⟨c9_amended_mutation_sources.1 witStore witStore "t1" rfl,
   c9_amended_mutation_sources.2.2 sysCacheClean ⟨none, defaultAppSettings⟩
     (.obj []) rfl⟩

/-- The SocksPort merge step leaves localPort unchanged. -/
theorem msSocksPort_localPort (c : AppSettingsM) (obj : List (String × JVal)) :
    (msSocksPort c obj).localPort = c.localPort := by
  unfold msSocksPort; split <;> rfl

/-- The AllowLan merge step leaves localPort unchanged. -/
theorem msAllowLan_localPort (c : AppSettingsM) (obj : List (String × JVal)) :
    (msAllowLan c obj).localPort = c.localPort := by
  unfold msAllowLan; split <;> rfl

/-- The SystemProxy merge step leaves localPort unchanged. -/
theorem msSystemProxy_localPort (c : AppSettingsM) (obj : List (String × JVal)) :
    (msSystemProxy c obj).localPort = c.localPort := by
  unfold msSystemProxy; split <;> rfl

/-- The TunEnabled merge step leaves localPort unchanged. -/
theorem msTunEnabled_localPort (c : AppSettingsM) (obj : List (String × JVal)) :
    (msTunEnabled c obj).localPort = c.localPort := by
  unfold msTunEnabled; split <;> rfl

/-- The TunStack merge step leaves localPort unchanged. -/
theorem msTunStack_localPort (c : AppSettingsM) (obj : List (String × JVal)) :
    (msTunStack c obj).localPort = c.localPort := by
  unfold msTunStack; split <;> rfl

/-- The LocalDns merge step leaves localPort unchanged. -/
theorem msLocalDns_localPort (c : AppSettingsM) (obj : List (String × JVal)) :
    (msLocalDns c obj).localPort = c.localPort := by
  unfold msLocalDns; split <;> rfl

/-- The RemoteDns merge step leaves localPort unchanged. -/
theorem msRemoteDns_localPort (c : AppSettingsM) (obj : List (String × JVal)) :
    (msRemoteDns c obj).localPort = c.localPort := by
  unfold msRemoteDns; split <;> rfl

/-- The FakeDns merge step leaves localPort unchanged. -/
theorem msFakeDns_localPort (c : AppSettingsM) (obj : List (String × JVal)) :
    (msFakeDns c obj).localPort = c.localPort := by
  unfold msFakeDns; split <;> rfl

/-- The BlockAds merge step leaves localPort unchanged. -/
theorem msBlockAds_localPort (c : AppSettingsM) (obj : List (String × JVal)) :
    (msBlockAds c obj).localPort = c.localPort := by
  unfold msBlockAds; split <;> rfl

/-- The BypassLan merge step leaves localPort unchanged. -/
theorem msBypassLan_localPort (c : AppSettingsM) (obj : List (String × JVal)) :
    (msBypassLan c obj).localPort = c.localPort := by
  unfold msBypassLan; split <;> rfl

/-- The RoutingMode merge step leaves localPort unchanged. -/
theorem msRoutingMode_localPort (c : AppSettingsM) (obj : List (String × JVal)) :
    (msRoutingMode c obj).localPort = c.localPort := by
  unfold msRoutingMode; split <;> rfl

/-- The DefaultRule merge step leaves localPort unchanged. -/
theorem msDefaultRule_localPort (c : AppSettingsM) (obj : List (String × JVal)) :
    (msDefaultRule c obj).localPort = c.localPort := by
  unfold msDefaultRule; split <;> rfl

/-- The LatencyTestUrl merge step leaves localPort unchanged. -/
theorem msLatencyTestUrl_localPort (c : AppSettingsM) (obj : List (String × JVal)) :
    (msLatencyTestUrl c obj).localPort = c.localPort := by
  unfold msLatencyTestUrl; split <;> rfl

/-- The LatencyTestTimeout merge step leaves localPort unchanged. -/
theorem msLatencyTestTimeout_localPort (c : AppSettingsM) (obj : List (String × JVal)) :
    (msLatencyTestTimeout c obj).localPort = c.localPort := by
  unfold msLatencyTestTimeout; split <;> rfl

/-- The AutoConnect merge step leaves localPort unchanged. -/
theorem msAutoConnect_localPort (c : AppSettingsM) (obj : List (String × JVal)) :
    (msAutoConnect c obj).localPort = c.localPort := by
  unfold msAutoConnect; split <;> rfl

/-- The MinimizeToTray merge step leaves localPort unchanged. -/
theorem msMinimizeToTray_localPort (c : AppSettingsM) (obj : List (String × JVal)) :
    (msMinimizeToTray c obj).localPort = c.localPort := by
  unfold msMinimizeToTray; split <;> rfl

/-- The StartWithWindows merge step leaves localPort unchanged. -/
theorem msStartWithWindows_localPort (c : AppSettingsM) (obj : List (String × JVal)) :
    (msStartWithWindows c obj).localPort = c.localPort := by
  unfold msStartWithWindows; split <;> rfl

/-- The StartMinimized merge step leaves localPort unchanged. -/
theorem msStartMinimized_localPort (c : AppSettingsM) (obj : List (String × JVal)) :
    (msStartMinimized c obj).localPort = c.localPort := by
  unfold msStartMinimized; split <;> rfl

/-- The ExitOnClose merge step leaves localPort unchanged. -/
theorem msExitOnClose_localPort (c : AppSettingsM) (obj : List (String × JVal)) :
    (msExitOnClose c obj).localPort = c.localPort := by
  unfold msExitOnClose; split <;> rfl

/-- The Theme merge step leaves localPort unchanged. -/
theorem msTheme_localPort (c : AppSettingsM) (obj : List (String × JVal)) :
    (msTheme c obj).localPort = c.localPort := by
  unfold msTheme; split <;> rfl

/-- The LocalPort merge step leaves socksPort unchanged. -/
theorem msLocalPort_socksPort (c : AppSettingsM) (obj : List (String × JVal)) :
    (msLocalPort c obj).socksPort = c.socksPort := by
  unfold msLocalPort; split <;> rfl

/-- The AllowLan merge step leaves socksPort unchanged. -/
theorem msAllowLan_socksPort (c : AppSettingsM) (obj : List (String × JVal)) :
    (msAllowLan c obj).socksPort = c.socksPort := by
  unfold msAllowLan; split <;> rfl

/-- The SystemProxy merge step leaves socksPort unchanged. -/
theorem msSystemProxy_socksPort (c : AppSettingsM) (obj : List (String × JVal)) :
    (msSystemProxy c obj).socksPort = c.socksPort := by
  unfold msSystemProxy; split <;> rfl

/-- The TunEnabled merge step leaves socksPort unchanged. -/
theorem msTunEnabled_socksPort (c : AppSettingsM) (obj : List (String × JVal)) :
    (msTunEnabled c obj).socksPort = c.socksPort := by
  unfold msTunEnabled; split <;> rfl

/-- The TunStack merge step leaves socksPort unchanged. -/
theorem msTunStack_socksPort (c : AppSettingsM) (obj : List (String × JVal)) :
    (msTunStack c obj).socksPort = c.socksPort := by
  unfold msTunStack; split <;> rfl

/-- The LocalDns merge step leaves socksPort unchanged. -/
theorem msLocalDns_socksPort (c : AppSettingsM) (obj : List (String × JVal)) :
    (msLocalDns c obj).socksPort = c.socksPort := by
  unfold msLocalDns; split <;> rfl

/-- The RemoteDns merge step leaves socksPort unchanged. -/
theorem msRemoteDns_socksPort (c : AppSettingsM) (obj : List (String × JVal)) :
    (msRemoteDns c obj).socksPort = c.socksPort := by
  unfold msRemoteDns; split <;> rfl

/-- The FakeDns merge step leaves socksPort unchanged. -/
theorem msFakeDns_socksPort (c : AppSettingsM) (obj : List (String × JVal)) :
    (msFakeDns c obj).socksPort = c.socksPort := by
  unfold msFakeDns; split <;> rfl

/-- The BlockAds merge step leaves socksPort unchanged. -/
theorem msBlockAds_socksPort (c : AppSettingsM) (obj : List (String × JVal)) :
    (msBlockAds c obj).socksPort = c.socksPort := by
  unfold msBlockAds; split <;> rfl

/-- The BypassLan merge step leaves socksPort unchanged. -/
theorem msBypassLan_socksPort (c : AppSettingsM) (obj : List (String × JVal)) :
    (msBypassLan c obj).socksPort = c.socksPort := by
  unfold msBypassLan; split <;> rfl

/-- The RoutingMode merge step leaves socksPort unchanged. -/
theorem msRoutingMode_socksPort (c : AppSettingsM) (obj : List (String × JVal)) :
    (msRoutingMode c obj).socksPort = c.socksPort := by
  unfold msRoutingMode; split <;> rfl

/-- The DefaultRule merge step leaves socksPort unchanged. -/
theorem msDefaultRule_socksPort (c : AppSettingsM) (obj : List (String × JVal)) :
    (msDefaultRule c obj).socksPort = c.socksPort := by
  unfold msDefaultRule; split <;> rfl

/-- The LatencyTestUrl merge step leaves socksPort unchanged. -/
theorem msLatencyTestUrl_socksPort (c : AppSettingsM) (obj : List (String × JVal)) :
    (msLatencyTestUrl c obj).socksPort = c.socksPort := by
  unfold msLatencyTestUrl; split <;> rfl

/-- The LatencyTestTimeout merge step leaves socksPort unchanged. -/
theorem msLatencyTestTimeout_socksPort (c : AppSettingsM) (obj : List (String × JVal)) :
    (msLatencyTestTimeout c obj).socksPort = c.socksPort := by
  unfold msLatencyTestTimeout; split <;> rfl

/-- The AutoConnect merge step leaves socksPort unchanged. -/
theorem msAutoConnect_socksPort (c : AppSettingsM) (obj : List (String × JVal)) :
    (msAutoConnect c obj).socksPort = c.socksPort := by
  unfold msAutoConnect; split <;> rfl

/-- The MinimizeToTray merge step leaves socksPort unchanged. -/
theorem msMinimizeToTray_socksPort (c : AppSettingsM) (obj : List (String × JVal)) :
    (msMinimizeToTray c obj).socksPort = c.socksPort := by
  unfold msMinimizeToTray; split <;> rfl

/-- The StartWithWindows merge step leaves socksPort unchanged. -/
theorem msStartWithWindows_socksPort (c : AppSettingsM) (obj : List (String × JVal)) :
    (msStartWithWindows c obj).socksPort = c.socksPort := by
  unfold msStartWithWindows; split <;> rfl

/-- The StartMinimized merge step leaves socksPort unchanged. -/
theorem msStartMinimized_socksPort (c : AppSettingsM) (obj : List (String × JVal)) :
    (msStartMinimized c obj).socksPort = c.socksPort := by
  unfold msStartMinimized; split <;> rfl

/-- The ExitOnClose merge step leaves socksPort unchanged. -/
theorem msExitOnClose_socksPort (c : AppSettingsM) (obj : List (String × JVal)) :
    (msExitOnClose c obj).socksPort = c.socksPort := by
  unfold msExitOnClose; split <;> rfl

/-- The Theme merge step leaves socksPort unchanged. -/
theorem msTheme_socksPort (c : AppSettingsM) (obj : List (String × JVal)) :
    (msTheme c obj).socksPort = c.socksPort := by
  unfold msTheme; split <;> rfl

/-- The merged localPort is decided by the localPort step alone. -/
theorem mergeSettingsObj_localPort (c : AppSettingsM) (obj : List (String × JVal)) :
    (mergeSettingsObj c obj).localPort = (msLocalPort c obj).localPort := by
  simp only [mergeSettingsObj, msSocksPort_localPort, msAllowLan_localPort, msSystemProxy_localPort, msTunEnabled_localPort, msTunStack_localPort, msLocalDns_localPort, msRemoteDns_localPort, msFakeDns_localPort, msBlockAds_localPort, msBypassLan_localPort, msRoutingMode_localPort, msDefaultRule_localPort, msLatencyTestUrl_localPort, msLatencyTestTimeout_localPort, msAutoConnect_localPort, msMinimizeToTray_localPort, msStartWithWindows_localPort, msStartMinimized_localPort, msExitOnClose_localPort, msTheme_localPort]

/-- The merged socksPort is decided by the socksPort step alone. -/
theorem mergeSettingsObj_socksPort (c : AppSettingsM) (obj : List (String × JVal)) :
    (mergeSettingsObj c obj).socksPort =
      (msSocksPort (msLocalPort c obj) obj).socksPort := by
  simp only [mergeSettingsObj, msAllowLan_socksPort, msSystemProxy_socksPort, msTunEnabled_socksPort, msTunStack_socksPort, msLocalDns_socksPort, msRemoteDns_socksPort, msFakeDns_socksPort, msBlockAds_socksPort, msBypassLan_socksPort, msRoutingMode_socksPort, msDefaultRule_socksPort, msLatencyTestUrl_socksPort, msLatencyTestTimeout_socksPort, msAutoConnect_socksPort, msMinimizeToTray_socksPort, msStartWithWindows_socksPort, msStartMinimized_socksPort, msExitOnClose_socksPort, msTheme_socksPort]

/-- as_u64 succeeds on every cast natural below 2^64. -/
theorem jAsU64_natCast (n : Nat) (hhi : n < 2 ^ 64) :
    jAsU64 (.num (n : Int)) = some n := by
  simp only [jAsU64]
  rw [if_pos ⟨Int.natCast_nonneg n, by exact_mod_cast hhi⟩]
  simp

/-- The localPort step truncates its u64 value with the u16 as-cast. -/
theorem msLocalPort_value (c : AppSettingsM) (obj : List (String × JVal))
    (n : Nat) (h : (mGet obj "localPort").bind jAsU64 = some n) :
    (msLocalPort c obj).localPort = n % 65536 := by
  unfold msLocalPort
  rw [h]

/-- The socksPort step truncates its u64 value with the u16 as-cast. -/
theorem msSocksPort_value (c : AppSettingsM) (obj : List (String × JVal))
    (n : Nat) (h : (mGet obj "socksPort").bind jAsU64 = some n) :
    (msSocksPort c obj).socksPort = n % 65536 := by
  unfold msSocksPort
  rw [h]

/-- The merge on an object payload is the per-field chain. -/
theorem mergeSettings_of_obj (current : AppSettingsM) (payload : JVal)
    (obj : List (String × JVal)) (hobj : jAsObj payload = some obj) :
    mergeSettings current payload = mergeSettingsObj current obj := by
  unfold mergeSettings
  rw [hobj]

/-- C10: a set_settings payload whose localPort or socksPort is a
non-negative integer below 2^64 (the u64 range) and of 65536 or more stores
that value modulo 2^16 (the as-cast from u64 to u16), and the merged result
is persisted: out-of-range ports are silently truncated, neither stored as
given nor rejected. -/
theorem c10_port_truncation (sys : SettingsSys) (payload : JVal)
    (obj : List (String × JVal)) (n : Nat)
    (hobj : jAsObj payload = some obj) (hlow : 65536 ≤ n) (hhi : n < 2 ^ 64) :
    (mGet obj "localPort" = some (.num (n : Int)) →
      (setSettings sys payload).cache.localPort = n % 65536) ∧
    (mGet obj "socksPort" = some (.num (n : Int)) →
      (setSettings sys payload).cache.socksPort = n % 65536) ∧
    (setSettings sys payload).disk = some ((setSettings sys payload).cache) := by
  refine ⟨?_, ?_, rfl⟩
  · intro hkey
    show (mergeSettings sys.cache payload).localPort = n % 65536
    rw [mergeSettings_of_obj sys.cache payload obj hobj, mergeSettingsObj_localPort]
    exact msLocalPort_value sys.cache obj n
      (by rw [hkey, Option.some_bind, jAsU64_natCast n hhi])
  · intro hkey
    show (mergeSettings sys.cache payload).socksPort = n % 65536
    rw [mergeSettings_of_obj sys.cache payload obj hobj, mergeSettingsObj_socksPort]
    exact msSocksPort_value (msLocalPort sys.cache obj) obj n
      (by rw [hkey, Option.some_bind, jAsU64_natCast n hhi])

/-- C10 witness: port 70000 is stored as 4464 in both fields. -/
theorem c10_witness :
    (setSettings sysCacheClean
      (.obj [("localPort", .num 70000), ("socksPort", .num 70000)])).cache.localPort =
      70000 % 65536 ∧
    (setSettings sysCacheClean
      (.obj [("localPort", .num 70000), ("socksPort", .num 70000)])).cache.socksPort =
      70000 % 65536 :=
  ⟨(c10_port_truncation sysCacheClean
      (.obj [("localPort", .num 70000), ("socksPort", .num 70000)])
      [("localPort", .num 70000), ("socksPort", .num 70000)] 70000 rfl
      (by norm_num) (by norm_num)).1 rfl,
   (c10_port_truncation sysCacheClean
      (.obj [("localPort", .num 70000), ("socksPort", .num 70000)])
      [("localPort", .num 70000), ("socksPort", .num 70000)] 70000 rfl
      (by norm_num) (by norm_num)).2.1 rfl⟩


/-- C3: deleting the currently active profile leaves activeProfileId equal
to the id of the first remaining profile (or absent when none remain),
clears activeNodeTag, and never leaves activeProfileId referring to the
deleted profile. -/
theorem c3_delete_active_profile (st : ProfStore) (pid : String)
    (hactive : (loadProfilesData st).activeProfileId = some pid) :
    (loadProfilesData (profileDeleteM st pid)).activeProfileId =
      (((loadProfilesData st).profiles.filter (fun p => p.id != pid)).head?.map
        (fun p => p.id)) ∧
    (loadProfilesData (profileDeleteM st pid)).activeNodeTag = none ∧
    (loadProfilesData (profileDeleteM st pid)).activeProfileId ≠ some pid := by
  have hactive' : (st.profilesFile.getD defaultProfilesData).activeProfileId = some pid :=
    hactive
  refine ⟨?_, ?_, ?_⟩
  · simp [profileDeleteM, loadProfilesData, hactive']
  · simp [profileDeleteM, loadProfilesData, hactive']
  · simp [profileDeleteM, loadProfilesData, hactive']
    intro x hx hc
    have hpred := List.find?_some hx
    rw [hc] at hpred
    simp at hpred

/-- C3 witness: deleting the only (active) profile clears both fields. -/
theorem c3_witness :
    (loadProfilesData (profileDeleteM witStore "p1")).activeNodeTag = none ∧
    (loadProfilesData (profileDeleteM witStore "p1")).activeProfileId ≠ some "p1" :=
  ⟨(c3_delete_active_profile witStore "p1" rfl).2.1,
   (c3_delete_active_profile witStore "p1" rfl).2.2⟩


theorem c4_counterexample :
    parseSubscriptionContent jpProxiesEmpty ypProxiesEmpty emptyProxiesBody = .ok [] ∧
    linkNodesOf emptyProxiesBody = [] ∧
    (base64Decode (rustTrim emptyProxiesBody)).bind utf8Decode = none :=
  ⟨rfl, rfl, rfl⟩

theorem c4_strategy_order (jsonParse yamlParse : String → Option JVal)
    (content : String) :
    (∀ j ps, jsonParse content = some j →
      (jGet j "proxies").bind jAsArr = some ps →
      parseSubscriptionContent jsonParse yamlParse content = parseClashProxies ps) ∧
    (∀ y ps, jsonStrategyNoMatch jsonParse content →
      yamlParse content = some y →
      (jGet y "proxies").bind jAsArr = some ps →
      parseSubscriptionContent jsonParse yamlParse content = parseClashProxies ps) ∧
    (∀ s, jsonStrategyNoMatch jsonParse content →
      yamlStrategyNoMatch yamlParse content →
      (base64Decode (rustTrim content)).bind utf8Decode = some s →
      linkNodesOf s ≠ [] →
      parseSubscriptionContent jsonParse yamlParse content = .ok (linkNodesOf s)) ∧
    (jsonStrategyNoMatch jsonParse content →
      yamlStrategyNoMatch yamlParse content →
      base64StageEmpty content →
      linkNodesOf content = [] →
      parseSubscriptionContent jsonParse yamlParse content =
        .error "No valid nodes found") := by
  refine ⟨?_, ?_, ?_, ?_⟩
  · intro j ps hj hp
    simp only [parseSubscriptionContent, hj, hp]
  · intro y ps hjn hy hp
    cases hjc : jsonParse content with
    | none => simp only [parseSubscriptionContent, hjc, hy, hp]
    | some j =>
      obtain ⟨h1, h2⟩ := hjn j hjc
      simp only [parseSubscriptionContent, hjc, h1, h2, hy, hp]
  · intro s hjn hyn hb hne
    have hne' : (linkNodesOf s).isEmpty = false := by
      simp [List.isEmpty_eq_false, hne]
    cases hjc : jsonParse content with
    | none =>
      cases hyc : yamlParse content with
      | none => simp only [parseSubscriptionContent, hjc, hyc, hb, hne',
          Bool.not_false, if_true]
      | some y =>
        have hy1 := hyn y hyc
        simp only [parseSubscriptionContent, hjc, hyc, hy1, hb, hne',
          Bool.not_false, if_true]
    | some j =>
      obtain ⟨h1, h2⟩ := hjn j hjc
      cases hyc : yamlParse content with
      | none => simp only [parseSubscriptionContent, hjc, h1, h2, hyc, hb, hne',
          Bool.not_false, if_true]
      | some y =>
        have hy1 := hyn y hyc
        simp only [parseSubscriptionContent, hjc, h1, h2, hyc, hy1, hb, hne',
          Bool.not_false, if_true]
  · intro hjn hyn hbe hraw
    have hraw' : (linkNodesOf content).isEmpty = true := by
      simp [List.isEmpty_iff, hraw]
    have hb64 : ∀ s, (base64Decode (rustTrim content)).bind utf8Decode = some s →
        (linkNodesOf s).isEmpty = true := fun s hs => by
      simp [List.isEmpty_iff, hbe s hs]
    cases hjc : jsonParse content with
    | none =>
      cases hyc : yamlParse content with
      | none =>
        cases hbc : (base64Decode (rustTrim content)).bind utf8Decode with
        | none => simp only [parseSubscriptionContent, hjc, hyc, hbc, hraw', if_true]
        | some s =>
          simp only [parseSubscriptionContent, hjc, hyc, hbc, hb64 s hbc,
            Bool.not_true, if_false, hraw', if_true]
          rfl
      | some y =>
        have hy1 := hyn y hyc
        cases hbc : (base64Decode (rustTrim content)).bind utf8Decode with
        | none => simp only [parseSubscriptionContent, hjc, hyc, hy1, hbc, hraw',
            if_true]
        | some s =>
          simp only [parseSubscriptionContent, hjc, hyc, hy1, hbc, hb64 s hbc,
            Bool.not_true, if_false, hraw', if_true]
          rfl
    | some j =>
      obtain ⟨h1, h2⟩ := hjn j hjc
      cases hyc : yamlParse content with
      | none =>
        cases hbc : (base64Decode (rustTrim content)).bind utf8Decode with
        | none => simp only [parseSubscriptionContent, hjc, h1, h2, hyc, hbc,
            hraw', if_true]
        | some s =>
          simp only [parseSubscriptionContent, hjc, h1, h2, hyc, hbc, hb64 s hbc,
            Bool.not_true, if_false, hraw', if_true]
          rfl
      | some y =>
        have hy1 := hyn y hyc
        cases hbc : (base64Decode (rustTrim content)).bind utf8Decode with
        | none => simp only [parseSubscriptionContent, hjc, h1, h2, hyc, hy1, hbc,
            hraw', if_true]
        | some s =>
          simp only [parseSubscriptionContent, hjc, h1, h2, hyc, hy1, hbc,
            hb64 s hbc, Bool.not_true, if_false, hraw', if_true]
          rfl

theorem c4_witness :
    parseSubscriptionContent jpProxiesEmpty ypProxiesEmpty "body" =
      parseClashProxies [] ∧
    parseSubscriptionContent (fun _ => none) (fun _ => none) "" =
      .error "No valid nodes found" :=
  ⟨(c4_strategy_order jpProxiesEmpty ypProxiesEmpty "body").1
      (.obj [("proxies", .arr [])]) [] rfl rfl,
   (c4_strategy_order (fun _ => none) (fun _ => none) "").2.2.2
      (fun j h => by cases h) (fun y h => by cases h)
      (fun s hs => by cases hs; rfl) (show linkNodesOf "" = [] from rfl)⟩

end KBox
